import Mathlib

/-!
Shallow embedding of `src/src/app/demo/demo.component.ts` (`DemoComponent`).

The component is a single-threaded state store over two in-memory
collections (`users`, `todos`) plus UI flags.  TypeScript is dynamically
typed at runtime, and `importData` can place arbitrary parsed-JSON values
into `users`/`todos`, so collection elements are modelled by a JavaScript
value type `JVal` rather than by typed records.

Platform primitives are modelled as follows:
* JavaScript numbers are modelled as `Int` plus a `nan` constructor; the
  component only ever produces integer arithmetic (ids, ranks, timestamps).
* `Date` objects are modelled by `JVal.date (t : Option Int)` — the
  millisecond timestamp, `none` for an Invalid Date.
* `JSON.parse` is external: `importData` takes the parse result as an
  `Option JVal` (`none` = parse failure).  `JSON.parse (JSON.stringify v)`
  is the JSON normal form of `v`, modelled by `jsonNorm`.
* Property access on `null`/`undefined` throws; a thrown exception is
  modelled by `Except Unit` for expressions and by `JsOut.thrown` for
  method bodies (carrying the partially mutated state, as the component
  object is mutated in place).
* `localStorage` is external: the initial state takes the stored theme
  string as a parameter.
-/

/-- Model of a JavaScript runtime value as it can appear in the component's
fields (`undefined`, `null`, booleans, numbers with `NaN`, strings, arrays,
plain objects with ordered fields, and `Date` objects). -/
inductive JVal where
  | undefined : JVal
  | null : JVal
  | bool : Bool → JVal
  | num : Int → JVal
  | nan : JVal
  | str : String → JVal
  | arr : List JVal → JVal
  | obj : List (String × JVal) → JVal
  | date : Option Int → JVal

/-- JavaScript property access `v.k`.  Throws (`Except.error`) on `null` and
`undefined`; yields `undefined` for a missing field or a non-object base.
Numeric index properties of arrays/strings are not modelled (the component
only reads named fields `id`, `name`, `email`, `isActive`, `title`,
`completed`, `priority`, `createdAt`, `users`, `todos`, `theme`). -/
def getF : JVal → String → Except Unit JVal
  | .null, _ => .error ()
  | .undefined, _ => .error ()
  | .obj fs, k => .ok ((fs.lookup k).getD .undefined)
  | _, _ => .ok .undefined

/-- Property access with `undefined` as the fall-back; used only where the
source guards the base against `null`/`undefined` first. -/
def getFD (v : JVal) (k : String) : JVal :=
  match getF v k with
  | .ok x => x
  | .error _ => .undefined

/-- JavaScript truthiness. -/
def truthy : JVal → Bool
  | .undefined => false
  | .null => false
  | .bool b => b
  | .num n => n != 0
  | .nan => false
  | .str s => s != ""
  | .arr _ => true
  | .obj _ => true
  | .date _ => true

/-- JavaScript strict equality `===` restricted to the comparisons the
component performs: a value against a number, string, boolean, `null` or
`undefined`.  Reference equality of two distinct heap objects is not
modelled (the source never compares two objects with `===`). -/
def jsEq : JVal → JVal → Bool
  | .num a, .num b => a == b
  | .str a, .str b => a == b
  | .bool a, .bool b => a == b
  | .null, .null => true
  | .undefined, .undefined => true
  | _, _ => false

/-! ### Date ↔ string codec

`Date.prototype.toISOString` / `new Date(string)` are platform primitives;
what the component relies on is only that serialising a valid timestamp and
re-parsing it restores the same timestamp.  They are modelled by an
executable decimal codec on the millisecond value. -/

/-- One decimal digit to its character. -/
def digitToChar : Nat → Char
  | 0 => '0' | 1 => '1' | 2 => '2' | 3 => '3' | 4 => '4'
  | 5 => '5' | 6 => '6' | 7 => '7' | 8 => '8' | _ => '9'

/-- Decimal character back to its digit value. -/
def charToDigit (c : Char) : Option Nat :=
  if c = '0' then some 0 else if c = '1' then some 1
  else if c = '2' then some 2 else if c = '3' then some 3
  else if c = '4' then some 4 else if c = '5' then some 5
  else if c = '6' then some 6 else if c = '7' then some 7
  else if c = '8' then some 8 else if c = '9' then some 9 else none

/-- Decimal representation of a natural number as characters. -/
def natDecL (n : Nat) : List Char :=
  if n = 0 then ['0'] else ((Nat.digits 10 n).map digitToChar).reverse

/-- Parse a nonempty all-digit character list as a natural number. -/
def parseNatDecL (l : List Char) : Option Nat :=
  if l ≠ [] ∧ l.all (fun c => (charToDigit c).isSome) then
    some (Nat.ofDigits 10 ((l.map (fun c => (charToDigit c).getD 0)).reverse))
  else none

/-- Serialisation of a valid timestamp (`Date.prototype.toISOString`,
modelled up to the injective decimal encoding of the millisecond value). -/
def isoOfTime (t : Int) : String :=
  if t < 0 then String.mk ('-' :: natDecL t.natAbs) else String.mk (natDecL t.natAbs)

/-- Timestamp parsing (`new Date(string)`'s millisecond value, `none` for
an Invalid Date). -/
def parseTime (s : String) : Option Int :=
  match s.data with
  | '-' :: rest => (parseNatDecL rest).map (fun n => -(n : Int))
  | l => (parseNatDecL l).map (fun n => (n : Int))

/-- `String.prototype.trim()`: strip leading and trailing whitespace
(the Unicode-whitespace classes of JavaScript are approximated by
`Char.isWhitespace`; the component only trims ASCII input). -/
def jsTrim (s : String) : String :=
  String.mk
    (((s.data.dropWhile Char.isWhitespace).reverse.dropWhile
        Char.isWhitespace).reverse)

/-- `Number(string)` as used when `Math.max` coerces a string argument:
blank strings coerce to `0`, optionally signed integer numerals to their
value, anything else to `NaN` (`none`).  Fractional and exotic numeral
forms are not modelled — the component only reaches this with junk ids. -/
def jsStrToNumber (s : String) : Option Int :=
  let t := ((s.data.dropWhile Char.isWhitespace).reverse.dropWhile
      Char.isWhitespace).reverse
  if t = [] then some 0
  else
    match t with
    | '-' :: rest => (parseNatDecL rest).map (fun n => -(n : Int))
    | l => (parseNatDecL l).map (fun n => (n : Int))

/-- Coercion to number as used by `Math.max`: `null → 0`, booleans to 0/1,
numeric strings to their value, everything else `NaN` (`none`).
Non-integer numeric strings and object coercion are not modelled; the
component only reaches this through `users.map(u => u.id)`. -/
def toNumber : JVal → Option Int
  | .num n => some n
  | .nan => none
  | .bool b => some (if b then 1 else 0)
  | .null => some 0
  | .str s => jsStrToNumber s
  | _ => none

/-- Maximum of a nonempty list of integers (used for `Math.max(...ids)`). -/
def intMaxList : List Int → Int
  | [] => 0
  | x :: xs => xs.foldl max x

/-- `Math.max(...xs)` over already-mapped values: `NaN` if any argument
coerces to `NaN`, otherwise the maximum.  The empty-spread case
(`-Infinity`) is unreachable because the source guards `length > 0`. -/
def jsMathMax (xs : List JVal) : JVal :=
  if xs.all (fun v => (toNumber v).isSome) then
    .num (intMaxList (xs.filterMap toNumber))
  else .nan

/-- `v + 1` on a JavaScript number (`NaN + 1 = NaN`). -/
def jsAdd1 : JVal → JVal
  | .num n => .num (n + 1)
  | _ => .nan

/-- Field update on an object's ordered field list: overwrite in place if
the key exists (keeping its position, as JavaScript does), else append. -/
def setFieldList (fs : List (String × JVal)) (k : String) (v : JVal) :
    List (String × JVal) :=
  if fs.any (fun kv => kv.1 == k) then
    fs.map (fun kv => if kv.1 == k then (k, v) else kv)
  else fs ++ [(k, v)]

/-- JavaScript property assignment `v.k = x`.  Class bodies are strict-mode
code, so assignment to a property of a primitive, `null` or `undefined`
throws.  Expando properties on arrays and `Date`s are not representable and
are dropped (the source only assigns fields of plain objects). -/
def setFieldE : JVal → String → JVal → Except Unit JVal
  | .obj fs, k, v => .ok (.obj (setFieldList fs k v))
  | .arr xs, _, _ => .ok (.arr xs)
  | .date t, _, _ => .ok (.date t)
  | _, _, _ => .error ()

/-- Object spread `{...v}`: the ordered own fields of a plain object;
`null`, `undefined` and primitives contribute nothing.  Index-property
spreads of arrays and strings are not modelled (the source spreads only
parsed-JSON todo elements). -/
def jsSpread : JVal → List (String × JVal)
  | .obj fs => fs
  | _ => []

/-- `Array.prototype.map` with a callback that can throw: the first throw
aborts the whole call (the partially built result array is discarded). -/
def jsMapE (f : JVal → Except Unit JVal) : List JVal → Except Unit (List JVal)
  | [] => .ok []
  | x :: xs => do
    let y ← f x
    let ys ← jsMapE f xs
    pure (y :: ys)

/-- `Array.prototype.filter`-based count with a throwing predicate. -/
def jsCountE (p : JVal → Except Unit Bool) : List JVal → Except Unit Nat
  | [] => .ok 0
  | x :: xs => do
    let b ← p x
    let n ← jsCountE p xs
    pure (if b then n + 1 else n)

/-- `Array.prototype.filter` with a throwing predicate. -/
def jsFilterE (p : JVal → Except Unit Bool) : List JVal → Except Unit (List JVal)
  | [] => .ok []
  | x :: xs => do
    let b ← p x
    let ys ← jsFilterE p xs
    pure (if b then x :: ys else ys)

/-- `Array.prototype.findIndex` with a throwing predicate (`none` = `-1`). -/
def jsFindIdxE (p : JVal → Except Unit Bool) :
    List JVal → Except Unit (Option Nat)
  | [] => .ok none
  | x :: xs => do
    let b ← p x
    if b then pure (some 0)
    else
      let r ← jsFindIdxE p xs
      pure (r.map (· + 1))

/-- `forEach(el => el.f = v)`: mutates elements in place left to right; a
throw (on a `null`/`undefined`/primitive element) leaves the prefix mutated
and the rest untouched.  Returns the resulting list and whether it threw. -/
def bulkSetField (k : String) (v : JVal) : List JVal → List JVal × Bool
  | [] => ([], false)
  | x :: xs =>
    match setFieldE x k v with
    | .error _ => (x :: xs, true)
    | .ok x' =>
      let r := bulkSetField k v xs
      (x' :: r.1, r.2)

/-- Stable insertion used to model `Array.prototype.sort` (which is
required to be stable): `keep y x = true` iff the comparator places `y`
strictly before `x`; on a tie the earlier-inserted element `x` goes first. -/
def stableInsert (keep : JVal → JVal → Bool) (x : JVal) :
    List JVal → List JVal
  | [] => [x]
  | y :: ys => if keep y x then y :: stableInsert keep x ys else x :: y :: ys

/-- Stable sort by insertion; extensionally equal to JavaScript's stable
`sort` for a consistent comparator.  Comparator exceptions on malformed
elements are not modelled (the comparator is totalised with defaults). -/
def stableSort (keep : JVal → JVal → Bool) : List JVal → List JVal
  | [] => []
  | x :: xs => stableInsert keep x (stableSort keep xs)

/-- `new Date(v)` for the argument shapes reachable from `importData`'s
`createdAt` conversion.  The string-coercion path for arrays/objects is not
modelled (it yields an Invalid Date here). -/
def jsNewDate : JVal → JVal
  | .date t => .date t
  | .num n => .date (some n)
  | .str s => .date (parseTime s)
  | .null => .date (some 0)
  | .bool b => .date (some (if b then 1 else 0))
  | .undefined => .date none
  | .nan => .date none
  | .arr _ => .date none
  | .obj _ => .date none

/-! ### JSON normal form

`JSON.parse (JSON.stringify v)` for the values the component serialises:
`Date`s become their ISO string (or `null` when invalid), `NaN` becomes
`null`, `undefined` fields are dropped and `undefined` array elements
become `null`. -/

mutual

/-- JSON round-trip normal form of a value. -/
def jsonNorm : JVal → JVal
  | .undefined => .null
  | .null => .null
  | .bool b => .bool b
  | .num n => .num n
  | .nan => .null
  | .str s => .str s
  | .date t =>
    match t with
    | some ms => .str (isoOfTime ms)
    | none => .null
  | .arr xs => .arr (jsonNormL xs)
  | .obj fs => .obj (jsonNormF fs)

/-- JSON normal form of an array's elements. -/
def jsonNormL : List JVal → List JVal
  | [] => []
  | x :: xs => jsonNorm x :: jsonNormL xs

/-- JSON normal form of an object's fields (`undefined` fields dropped). -/
def jsonNormF : List (String × JVal) → List (String × JVal)
  | [] => []
  | (_, .undefined) :: fs => jsonNormF fs
  | (k, v) :: fs => (k, jsonNorm v) :: jsonNormF fs

end

/-! ### Component state -/

/-- The derived `statistics` record. -/
structure Stats where
  totalUsers : Nat
  activeUsers : Nat
  totalTodos : Nat
  completedTodos : Nat
  highPriorityTodos : Nat
deriving DecidableEq, Repr

/-- The mutable fields of `DemoComponent`.  `users`/`todos` elements and
`selectedUser`/`theme` are raw JavaScript values because `importData` can
replace them wholesale with unvalidated parsed JSON. -/
structure DemoState where
  users : List JVal
  selectedUser : JVal
  userSearchTerm : String
  showUserForm : Bool
  todos : List JVal
  newTodoTitle : String
  selectedPriority : String
  todoFilter : String
  isLoading : Bool
  errorMessage : String
  currentTime : Int
  counter : Int
  theme : JVal
  statistics : Stats

/-- Outcome of running a method body: normal return, or an uncaught
exception.  Both carry the state, because the component object is mutated
in place and a throw keeps all mutations made before it. -/
inductive JsOut where
  | ok : DemoState → JsOut
  | thrown : DemoState → JsOut

/-- The state carried by an outcome. -/
def JsOut.st : JsOut → DemoState
  | .ok s => s
  | .thrown s => s

/-- Run a continuation if the body so far has not thrown. -/
def JsOut.andThen : JsOut → (DemoState → JsOut) → JsOut
  | .ok s, f => f s
  | .thrown s, _ => .thrown s

/-- Apply further straight-line assignments if not thrown. -/
def JsOut.mapOk : JsOut → (DemoState → DemoState) → JsOut
  | .ok s, f => .ok (f s)
  | .thrown s, _ => .thrown s

/-- Field-initialiser values of the class plus construction-time inputs:
`currentTime = new Date()` is passed in as `t0`. -/
def defaultState (t0 : Int) : DemoState :=
  { users := []
    selectedUser := .null
    userSearchTerm := ""
    showUserForm := false
    todos := []
    newTodoTitle := ""
    selectedPriority := "medium"
    todoFilter := "all"
    isLoading := false
    errorMessage := ""
    currentTime := t0
    counter := 0
    theme := .str "light"
    statistics := ⟨0, 0, 0, 0, 0⟩ }

/-! ### Statistics -/

/-- `updateStatistics` (lines 248–256): wholesale recomputation.  Each
`filter` callback performs a property access that throws on `null` or
`undefined` elements. -/
def updateStatistics (users todos : List JVal) : Except Unit Stats := do
  let active ← jsCountE (fun u => (getF u "isActive").map truthy) users
  let completed ← jsCountE (fun t => (getF t "completed").map truthy) todos
  let high ← jsCountE (fun t => (getF t "priority").map (jsEq · (.str "high"))) todos
  pure ⟨users.length, active, todos.length, completed, high⟩

/-- `this.updateStatistics()` as a method call on the current state. -/
def callStats (s : DemoState) : JsOut :=
  match updateStatistics s.users s.todos with
  | .ok st => .ok { s with statistics := st }
  | .error _ => .thrown s

/-! ### Seed data and lifecycle -/

/-- The five fixed users of `loadInitialUsers` (lines 84–93). -/
def mkUser (id : Int) (name email : String) (isActive : Bool) : JVal :=
  .obj [("id", .num id), ("name", .str name), ("email", .str email),
        ("isActive", .bool isActive)]

/-- Seed users. -/
def seedUsers : List JVal :=
  [ mkUser 1 "John Doe" "john@example.com" true
  , mkUser 2 "Jane Smith" "jane@example.com" false
  , mkUser 3 "Bob Johnson" "bob@example.com" true
  , mkUser 4 "Alice Brown" "alice@example.com" true
  , mkUser 5 "Charlie Wilson" "charlie@example.com" false ]

/-- A todo record. -/
def mkTodo (id : Int) (title : String) (completed : Bool) (priority : String)
    (createdAt : Int) : JVal :=
  .obj [("id", .num id), ("title", .str title), ("completed", .bool completed),
        ("priority", .str priority), ("createdAt", .date (some createdAt))]

/-- Seed todos of `loadInitialTodos` (lines 95–104); `new Date('2024-01-0k')`
is the corresponding millisecond timestamp. -/
def seedTodos : List JVal :=
  [ mkTodo 1 "Complete project setup" true "high" 1704067200000
  , mkTodo 2 "Write unit tests" false "high" 1704153600000
  , mkTodo 3 "Update documentation" false "medium" 1704240000000
  , mkTodo 4 "Code review" false "low" 1704326400000
  , mkTodo 5 "Deploy to staging" true "medium" 1704412800000 ]

/-- `loadInitialUsers`. -/
def loadInitialUsers (s : DemoState) : JsOut :=
  callStats { s with users := seedUsers }

/-- `loadInitialTodos`. -/
def loadInitialTodos (s : DemoState) : JsOut :=
  callStats { s with todos := seedTodos }

/-- `loadTheme` (lines 264–269): adopt the stored value only if it is
exactly `"dark"` or `"light"`. -/
def loadTheme (s : DemoState) (saved : Option String) : DemoState :=
  match saved with
  | some v => if v = "dark" ∨ v = "light" then { s with theme := .str v } else s
  | none => s

/-- State after `ngOnInit` (construction, `initializeData`, timer
subscription, and both seed loads); `saved` is the value stored under the
`demo-theme` key, `t0` the construction time. -/
def initState (saved : Option String) (t0 : Int) : DemoState :=
  let s1 := loadTheme (defaultState t0) saved
  let s2 := (callStats s1).st
  let s3 := (loadInitialUsers s2).st
  (loadInitialTodos s3).st

/-- One timer tick (lines 75–82): refresh `currentTime`, bump `counter`. -/
def tick (s : DemoState) (now : Int) : DemoState :=
  { s with currentTime := now, counter := s.counter + 1 }

/-! ### User operations -/

/-- Split a character list at its first `'@'`. -/
def splitAtFirstAt : List Char → Option (List Char × List Char)
  | [] => none
  | c :: cs =>
    if c = '@' then some ([], cs)
    else (splitAtFirstAt cs).map (fun p => (c :: p.1, p.2))

/-- A character allowed in an email segment: `[^\s@]`. -/
def isEmailSegChar (c : Char) : Bool := !c.isWhitespace && c != '@'

/-- `isValidEmail` (lines 235–238): the regular expression
`^[^\s@]+@[^\s@]+\.[^\s@]+$` — no whitespace, exactly one `@` with a
nonempty part on each side, and the part after `@` containing a dot with a
nonempty segment on both sides (those segments may themselves contain
dots).  A string matches the regex iff it splits at its first `@` into a
nonempty whitespace-free local part and a nonempty whitespace-free,
`@`-free domain with a dot at an interior position. -/
def isValidEmail (email : String) : Bool :=
  match splitAtFirstAt email.data with
  | none => false
  | some (localPart, domain) =>
    !localPart.isEmpty && localPart.all isEmailSegChar &&
    !domain.isEmpty && domain.all isEmailSegChar &&
    ((domain.drop 1).dropLast.contains '.')

/-- `getNextUserId` (lines 240–242). -/
def getNextUserId (users : List JVal) : Except Unit JVal :=
  if users.length > 0 then do
    let ids ← jsMapE (fun u => getF u "id") users
    pure (jsAdd1 (jsMathMax ids))
  else pure (.num 1)

/-- `getNextTodoId` (lines 244–246). -/
def getNextTodoId (todos : List JVal) : Except Unit JVal :=
  if todos.length > 0 then do
    let ids ← jsMapE (fun t => getF t "id") todos
    pure (jsAdd1 (jsMathMax ids))
  else pure (.num 1)

/-- `addUser` (lines 107–129). -/
def addUser (s : DemoState) (name email : String) : JsOut :=
  if jsTrim name = "" ∨ jsTrim email = "" then
    .ok { s with errorMessage := "Name and email are required" }
  else if ¬ isValidEmail email then
    .ok { s with errorMessage := "Please enter a valid email address" }
  else
    match getNextUserId s.users with
    | .error _ => .thrown s
    | .ok idv =>
      let newUser : JVal := .obj
        [("id", idv), ("name", .str (jsTrim name)), ("email", .str (jsTrim email)),
         ("isActive", .bool true)]
      (callStats { s with users := s.users ++ [newUser] }).mapOk
        (fun t => { t with errorMessage := "", showUserForm := false })

/-- `deleteUser` (lines 131–140). -/
def deleteUser (s : DemoState) (userId : Int) : JsOut :=
  match jsFindIdxE (fun u => (getF u "id").map (jsEq · (.num userId))) s.users with
  | .error _ => .thrown s
  | .ok none => .ok s
  | .ok (some i) =>
    let s1 := { s with users := s.users.eraseIdx i }
    let s2 :=
      if truthy s1.selectedUser && jsEq (getFD s1.selectedUser "id") (.num userId)
      then { s1 with selectedUser := .null } else s1
    callStats s2

/-- `toggleUserStatus` (lines 142–148): `find` then in-place flip of the
found record's `isActive`. -/
def toggleUserStatus (s : DemoState) (userId : Int) : JsOut :=
  match jsFindIdxE (fun u => (getF u "id").map (jsEq · (.num userId))) s.users with
  | .error _ => .thrown s
  | .ok none => .ok s
  | .ok (some i) =>
    let u := s.users.getD i .undefined
    match setFieldE u "isActive" (.bool (! truthy (getFD u "isActive"))) with
    | .error _ => .thrown s
    | .ok u' => callStats { s with users := s.users.set i u' }

/-- `selectUser` (lines 150–152).  The stored value is a snapshot; aliasing
between `selectedUser` and a `users` element is not modelled (the claims
compare only ids through it). -/
def selectUser (s : DemoState) (u : JVal) : DemoState :=
  { s with selectedUser := u }

/-! ### Todo operations -/

/-- `addTodo` (lines 166–184); `now` is `new Date()` at the call. -/
def addTodo (s : DemoState) (now : Int) : JsOut :=
  if jsTrim s.newTodoTitle = "" then
    .ok { s with errorMessage := "Todo title is required" }
  else
    match getNextTodoId s.todos with
    | .error _ => .thrown s
    | .ok idv =>
      let newTodo : JVal := .obj
        [("id", idv), ("title", .str (jsTrim s.newTodoTitle)),
         ("completed", .bool false), ("priority", .str s.selectedPriority),
         ("createdAt", .date (some now))]
      (callStats { s with todos := s.todos ++ [newTodo], newTodoTitle := "" }).mapOk
        (fun t => { t with errorMessage := "" })

/-- `toggleTodo` (lines 186–192). -/
def toggleTodo (s : DemoState) (todoId : Int) : JsOut :=
  match jsFindIdxE (fun t => (getF t "id").map (jsEq · (.num todoId))) s.todos with
  | .error _ => .thrown s
  | .ok none => .ok s
  | .ok (some i) =>
    let t := s.todos.getD i .undefined
    match setFieldE t "completed" (.bool (! truthy (getFD t "completed"))) with
    | .error _ => .thrown s
    | .ok t' => callStats { s with todos := s.todos.set i t' }

/-- `deleteTodo` (lines 194–200). -/
def deleteTodo (s : DemoState) (todoId : Int) : JsOut :=
  match jsFindIdxE (fun t => (getF t "id").map (jsEq · (.num todoId))) s.todos with
  | .error _ => .thrown s
  | .ok none => .ok s
  | .ok (some i) => callStats { s with todos := s.todos.eraseIdx i }

/-- `updateTodoPriority` (lines 202–208). -/
def updateTodoPriority (s : DemoState) (todoId : Int) (priority : String) : JsOut :=
  match jsFindIdxE (fun t => (getF t "id").map (jsEq · (.num todoId))) s.todos with
  | .error _ => .thrown s
  | .ok none => .ok s
  | .ok (some i) =>
    let t := s.todos.getD i .undefined
    match setFieldE t "priority" (.str priority) with
    | .error _ => .thrown s
    | .ok t' => callStats { s with todos := s.todos.set i t' }

/-- `clearCompletedTodos` (lines 229–232). -/
def clearCompletedTodos (s : DemoState) : JsOut :=
  match jsFilterE (fun t => (getF t "completed").map (fun c => ! truthy c)) s.todos with
  | .error _ => .thrown s
  | .ok ts => callStats { s with todos := ts }

/-! ### Theme, export and import -/

/-- `toggleTheme` (lines 259–262); the `saveTheme` write goes to the
external key-value store and does not change component state. -/
def toggleTheme (s : DemoState) : DemoState :=
  { s with theme := if jsEq s.theme (.str "light") then .str "dark" else .str "light" }

/-- The object serialised by `exportData` (lines 276–284); `now` is the
`new Date()` used for `exportDate`.  `exportData` itself returns
`JSON.stringify(data, null, 2)`; stringification is external, so the
export is modelled by this value and re-parsing by its JSON normal form. -/
def exportObj (s : DemoState) (now : Int) : JVal :=
  .obj [("users", .arr s.users), ("todos", .arr s.todos), ("theme", s.theme),
        ("exportDate", .str (isoOfTime now))]

/-- The `createdAt` conversion inside `importData`'s `todos.map`
(lines 299–302): `{...todo, createdAt: new Date(todo.createdAt)}`.
The spread is evaluated first and never throws; the `todo.createdAt`
access throws on a `null`/`undefined` element. -/
def convTodo (todo : JVal) : Except Unit JVal := do
  let fs := jsSpread todo
  let c ← getF todo "createdAt"
  pure (.obj (setFieldList fs "createdAt" (jsNewDate c)))

/-- Whether a value is an array (`Array.isArray`). -/
def isArr : JVal → Bool
  | .arr _ => true
  | _ => false

/-- Elements of an array value. -/
def arrElems : JVal → List JVal
  | .arr xs => xs
  | _ => []

/-- The `try` block of `importData` (lines 294–308) after a successful
parse: each guarded wholesale replacement, then `updateStatistics` and
clearing `errorMessage`.  A throw anywhere (e.g. a property access on a
`null` `data` or the `createdAt` access on a `null` todo element) keeps
the replacements already made. -/
def importBody (s : DemoState) (data : JVal) : JsOut :=
  match getF data "users" with
  | .error _ => .thrown s
  | .ok uv =>
    let s1 := if truthy uv && isArr uv then { s with users := arrElems uv } else s
    match getF data "todos" with
    | .error _ => .thrown s1
    | .ok tv =>
      let afterTodos : JsOut :=
        if truthy tv && isArr tv then
          match jsMapE convTodo (arrElems tv) with
          | .error _ => .thrown s1
          | .ok ts => .ok { s1 with todos := ts }
        else .ok s1
      afterTodos.andThen (fun s2 =>
        match getF data "theme" with
        | .error _ => .thrown s2
        | .ok thv =>
          let s3 := if truthy thv then { s2 with theme := thv } else s2
          (callStats s3).mapOk (fun t => { t with errorMessage := "" }))

/-- `importData` (lines 292–312): `parsed` is the result of
`JSON.parse(jsonData)` (`none` = parse failure).  The `catch` turns any
throw into `errorMessage = "Invalid JSON data for import"`, keeping the
mutations made before the throw; the method itself never throws. -/
def importData (s : DemoState) (parsed : Option JVal) : DemoState :=
  match parsed with
  | none => { s with errorMessage := "Invalid JSON data for import" }
  | some data =>
    match importBody s data with
    | .ok s' => s'
    | .thrown s' => { s' with errorMessage := "Invalid JSON data for import" }

/-! ### Bulk operations, sorts, resets -/

/-- `markAllTodosComplete` (lines 315–318). -/
def markAllTodosComplete (s : DemoState) : JsOut :=
  let r := bulkSetField "completed" (.bool true) s.todos
  if r.2 then .thrown { s with todos := r.1 }
  else callStats { s with todos := r.1 }

/-- `markAllTodosIncomplete` (lines 320–323). -/
def markAllTodosIncomplete (s : DemoState) : JsOut :=
  let r := bulkSetField "completed" (.bool false) s.todos
  if r.2 then .thrown { s with todos := r.1 }
  else callStats { s with todos := r.1 }

/-- `activateAllUsers` (lines 325–328). -/
def activateAllUsers (s : DemoState) : JsOut :=
  let r := bulkSetField "isActive" (.bool true) s.users
  if r.2 then .thrown { s with users := r.1 }
  else callStats { s with users := r.1 }

/-- `deactivateAllUsers` (lines 330–333). -/
def deactivateAllUsers (s : DemoState) : JsOut :=
  let r := bulkSetField "isActive" (.bool false) s.users
  if r.2 then .thrown { s with users := r.1 }
  else callStats { s with users := r.1 }

/-- The string key a user comparator reads, defaulting for malformed
elements (`localeCompare` is approximated by code-point order; comparator
exceptions on malformed elements are not modelled — the claims' states
keep users well-formed). -/
def strKeyOf (u : JVal) (k : String) : String :=
  match getFD u k with
  | .str s => s
  | _ => ""

/-- `sortUsersByName` (lines 336–338): ascending, stable. -/
def sortUsersByName (s : DemoState) : DemoState :=
  { s with users :=
      stableSort (fun y x => strKeyOf y "name" < strKeyOf x "name") s.users }

/-- `sortUsersByEmail` (lines 340–342): ascending, stable. -/
def sortUsersByEmail (s : DemoState) : DemoState :=
  { s with users :=
      stableSort (fun y x => strKeyOf y "email" < strKeyOf x "email") s.users }

/-- `priorityOrder[p]` (line 345): `none` models `undefined`. -/
def priorityOrderOf : String → Option Int
  | "high" => some 3
  | "medium" => some 2
  | "low" => some 1
  | _ => none

/-- The rank `priorityOrder[t.priority]` of a todo. -/
def priorityRank (t : JVal) : Option Int :=
  match getFD t "priority" with
  | .str p => priorityOrderOf p
  | _ => none

/-- `sortTodosByPriority` (lines 344–347): comparator
`priorityOrder[b.priority] - priorityOrder[a.priority]` — descending by
rank; a `NaN` comparator value (undefined rank) sorts as a tie. -/
def sortTodosByPriority (s : DemoState) : DemoState :=
  { s with todos :=
      stableSort (fun y x =>
        match priorityRank y, priorityRank x with
        | some ry, some rx => rx < ry
        | _, _ => false) s.todos }

/-- `getTime()` of a todo's `createdAt` (`none` models `NaN`). -/
def createdAtTime (t : JVal) : Option Int :=
  match getFD t "createdAt" with
  | .date (some ms) => some ms
  | _ => none

/-- `sortTodosByDate` (lines 349–351): descending by timestamp, stable. -/
def sortTodosByDate (s : DemoState) : DemoState :=
  { s with todos :=
      stableSort (fun y x =>
        match createdAtTime y, createdAtTime x with
        | some ty, some tx => tx < ty
        | _, _ => false) s.todos }

/-- `resetAllData` (lines 354–362). -/
def resetAllData (s : DemoState) : JsOut :=
  callStats
    { s with users := [], todos := [], selectedUser := .null,
             userSearchTerm := "", newTodoTitle := "", errorMessage := "" }

/-- `resetToDefaults` (lines 364–374). -/
def resetToDefaults (s : DemoState) : DemoState :=
  let s1 := (loadInitialUsers s).st
  let s2 := (loadInitialTodos s1).st
  { s2 with selectedUser := .null, userSearchTerm := "", newTodoTitle := "",
            errorMessage := "", theme := .str "light", todoFilter := "all",
            selectedPriority := "medium" }

/-! ### The public operation alphabet

One constructor per public mutating entry point of the component, plus
assignments to the template-bound input fields.  Environment inputs
(timestamps, parsed import payloads) are constructor arguments. -/

/-- A public operation on the component. -/
inductive Op where
  | addUser (name email : String)
  | deleteUser (userId : Int)
  | toggleUserStatus (userId : Int)
  | selectUser (u : JVal)
  | addTodo (now : Int)
  | toggleTodo (todoId : Int)
  | deleteTodo (todoId : Int)
  | updateTodoPriority (todoId : Int) (priority : String)
  | clearCompletedTodos
  | markAllTodosComplete
  | markAllTodosIncomplete
  | activateAllUsers
  | deactivateAllUsers
  | sortUsersByName
  | sortUsersByEmail
  | sortTodosByPriority
  | sortTodosByDate
  | resetAllData
  | resetToDefaults
  | toggleTheme
  | tick (now : Int)
  | setNewTodoTitle (t : String)
  | setUserSearchTerm (t : String)
  | setSelectedPriority (p : String)
  | setTodoFilter (f : String)
  | importData (parsed : Option JVal)

/-- Whether an operation is an `importData` call. -/
def Op.isImport : Op → Bool
  | .importData _ => true
  | _ => false

/-- Execute one public operation; an uncaught exception propagates to the
caller but the component keeps the mutations made before the throw, so the
resulting state is the carried one either way. -/
def runOp (s : DemoState) : Op → DemoState
  | .addUser name email => (addUser s name email).st
  | .deleteUser userId => (deleteUser s userId).st
  | .toggleUserStatus userId => (toggleUserStatus s userId).st
  | .selectUser u => selectUser s u
  | .addTodo now => (addTodo s now).st
  | .toggleTodo todoId => (toggleTodo s todoId).st
  | .deleteTodo todoId => (deleteTodo s todoId).st
  | .updateTodoPriority todoId p => (updateTodoPriority s todoId p).st
  | .clearCompletedTodos => (clearCompletedTodos s).st
  | .markAllTodosComplete => (markAllTodosComplete s).st
  | .markAllTodosIncomplete => (markAllTodosIncomplete s).st
  | .activateAllUsers => (activateAllUsers s).st
  | .deactivateAllUsers => (deactivateAllUsers s).st
  | .sortUsersByName => sortUsersByName s
  | .sortUsersByEmail => sortUsersByEmail s
  | .sortTodosByPriority => sortTodosByPriority s
  | .sortTodosByDate => sortTodosByDate s
  | .resetAllData => (resetAllData s).st
  | .resetToDefaults => resetToDefaults s
  | .toggleTheme => toggleTheme s
  | .tick now => tick s now
  | .setNewTodoTitle t => { s with newTodoTitle := t }
  | .setUserSearchTerm t => { s with userSearchTerm := t }
  | .setSelectedPriority p => { s with selectedPriority := p }
  | .setTodoFilter f => { s with todoFilter := f }
  | .importData parsed => importData s parsed

/-- Execute a sequence of public operations. -/
def runOps (s : DemoState) (ops : List Op) : DemoState :=
  ops.foldl runOp s

/-! ### Well-formedness -/

/-- A well-formed user record: exactly the `User` interface shape the
component itself creates. -/
def wfUserB : JVal → Bool
  | .obj [("id", .num _), ("name", .str _), ("email", .str _),
          ("isActive", .bool _)] => true
  | _ => false

/-- A well-formed todo record: exactly the `TodoItem` interface shape with
a valid priority and a valid `createdAt` date. -/
def wfTodoB : JVal → Bool
  | .obj [("id", .num _), ("title", .str _), ("completed", .bool _),
          ("priority", .str p), ("createdAt", .date (some _))] =>
    p == "low" || p == "medium" || p == "high"
  | _ => false

/-- The integer ids of the well-formed elements of a collection. -/
def idsOf (xs : List JVal) : List Int :=
  xs.filterMap (fun u =>
    match getF u "id" with
    | .ok (.num i) => some i
    | _ => none)

/-- Two collection elements carry the same id. -/
def SameId (a b : JVal) : Prop :=
  ∃ i : Int, getF a "id" = .ok (.num i) ∧ getF b "id" = .ok (.num i)

/-- No two elements of the collection have the same id (claim C1's
invariant). -/
def UniqueIds (xs : List JVal) : Prop :=
  xs.Pairwise (fun a b => ¬ SameId a b)

/-! ### Basic lemmas about the method-body combinators -/

/-- A value that is neither `null` nor `undefined` (property access on it
cannot throw). -/
def notNullish : JVal → Bool
  | .null => false
  | .undefined => false
  | _ => true

lemma getF_ok_of_notNullish {v : JVal} (h : notNullish v = true) (k : String) :
    getF v k = .ok (getFD v k) := by
  cases v <;> simp_all [getF, getFD, notNullish]

lemma callStats_errorMessage (s : DemoState) :
    (callStats s).st.errorMessage = s.errorMessage := by
  unfold callStats
  cases updateStatistics s.users s.todos <;> rfl

lemma callStats_users (s : DemoState) : (callStats s).st.users = s.users := by
  unfold callStats
  cases updateStatistics s.users s.todos <;> rfl

lemma callStats_todos (s : DemoState) : (callStats s).st.todos = s.todos := by
  unfold callStats
  cases updateStatistics s.users s.todos <;> rfl

/-- The pure per-element counts of `updateStatistics` when no callback
throws. -/
def statsOf (users todos : List JVal) : Stats :=
  ⟨users.length,
   users.countP (fun u => truthy (getFD u "isActive")),
   todos.length,
   todos.countP (fun t => truthy (getFD t "completed")),
   todos.countP (fun t => jsEq (getFD t "priority") (.str "high"))⟩

lemma jsCountE_ok {p : JVal → Except Unit Bool} {pb : JVal → Bool}
    {xs : List JVal} (hp : ∀ x ∈ xs, p x = .ok (pb x)) :
    jsCountE p xs = .ok (xs.countP pb) := by
  induction xs with
  | nil => rfl
  | cons x xs ih =>
    have hx := hp x (List.mem_cons_self x xs)
    have ihr := ih (fun y hy => hp y (List.mem_cons_of_mem x hy))
    simp only [jsCountE, hx, ihr, List.countP_cons, bind, Except.bind]
    cases h : pb x <;> simp [h, pure, Except.pure]

/-- `updateStatistics` returns normally whenever no element is `null` or
`undefined`, and then computes exactly the five wholesale counts. -/
lemma updateStatistics_ok {users todos : List JVal}
    (hu : ∀ u ∈ users, notNullish u = true)
    (ht : ∀ t ∈ todos, notNullish t = true) :
    updateStatistics users todos = .ok (statsOf users todos) := by
  unfold updateStatistics
  rw [@jsCountE_ok _ (fun u => truthy (getFD u "isActive")) _
      (fun x hx => by rw [getF_ok_of_notNullish (hu x hx)]; rfl)]
  rw [@jsCountE_ok _ (fun t => truthy (getFD t "completed")) _
      (fun x hx => by rw [getF_ok_of_notNullish (ht x hx)]; rfl)]
  rw [@jsCountE_ok _ (fun t => jsEq (getFD t "priority") (.str "high")) _
      (fun x hx => by rw [getF_ok_of_notNullish (ht x hx)]; rfl)]
  rfl

lemma callStats_ok {s : DemoState}
    (hu : ∀ u ∈ s.users, notNullish u = true)
    (ht : ∀ t ∈ s.todos, notNullish t = true) :
    callStats s = .ok { s with statistics := statsOf s.users s.todos } := by
  unfold callStats
  rw [updateStatistics_ok hu ht]

/-! ### Claim C10 — frame of `resetAllData` -/

/-- C10: `resetAllData` leaves every field it does not explicitly clear
unchanged — after it, `theme`, `todoFilter`, `selectedPriority`,
`showUserForm`, `counter` and `currentTime` equal their values before the
call (and it never throws), unlike `resetToDefaults`, which also resets
`theme`, the todo filter and the selected priority. -/
theorem resetAllData_frame (s : DemoState) :
    (resetAllData s).st.theme = s.theme ∧
    (resetAllData s).st.todoFilter = s.todoFilter ∧
    (resetAllData s).st.selectedPriority = s.selectedPriority ∧
    (resetAllData s).st.showUserForm = s.showUserForm ∧
    (resetAllData s).st.counter = s.counter ∧
    (resetAllData s).st.currentTime = s.currentTime ∧
    (resetAllData s = .ok ((resetAllData s).st)) ∧
    (resetToDefaults s).theme = .str "light" ∧
    (resetToDefaults s).todoFilter = "all" ∧
    (resetToDefaults s).selectedPriority = "medium" :=
  ⟨rfl, rfl, rfl, rfl, rfl, rfl, rfl, rfl, rfl, rfl⟩

/-! ### Claim C2 — `importData` failure atomicity -/

/-- An import payload whose `todos` conversion throws after `users` has
already been replaced: `{"users": [], "todos": [null]}`. -/
def c2Payload : JVal := .obj [("users", .arr []), ("todos", .arr [.null])]

/-- C2 counterexample: `importData` can terminate with
`errorMessage = "Invalid JSON data for import"` and `users` mutated.  On
the seeded initial state, the parseable payload `{"users":[],"todos":[null]}`
replaces `users` by `[]`, then throws converting the `null` todo element
(`todo.createdAt` access); the `catch` sets the error message, but `users`
stays emptied — so the claimed no-partial-mutation property is false. -/
theorem importData_not_atomic_counterexample :
    (importData (initState none 0) (some c2Payload)).errorMessage =
      "Invalid JSON data for import" ∧
    (importData (initState none 0) (some c2Payload)).users ≠
      (initState none 0).users :=
  ⟨rfl, fun h => absurd (congrArg List.length h) (by decide)⟩

/-- C2 amended: atomicity holds for *parse* failures — whenever the input
string is not parseable JSON, `importData` sets
`errorMessage = "Invalid JSON data for import"`, leaves `users`, `todos`,
`theme` (and every other field) exactly as before, and returns normally
(by construction `importData` is total: the `catch` swallows every throw).
If the parse succeeds but the body throws (e.g. on a `null` todos
element), replacements already made are kept. -/
theorem importData_parse_failure_atomic (s : DemoState) :
    importData s none = { s with errorMessage := "Invalid JSON data for import" } ∧
    (importData s none).users = s.users ∧
    (importData s none).todos = s.todos ∧
    (importData s none).theme = s.theme :=
  ⟨rfl, rfl, rfl, rfl⟩

/-! ### Claim C5 — totality of the statistics recomputation -/

/-- C5 counterexample: `updateStatistics` throws on a `null` element
(`users.filter(u => u.isActive)` dereferences it), so it does *not* skip
non-record entries without failing. -/
theorem updateStatistics_throws_on_null :
    updateStatistics [.null] [] = .error () := rfl

/-- C5 amended: the statistics recomputation returns normally whenever no
element of `users`/`todos` is `null` or `undefined` — non-record entries
such as numbers, strings or booleans are tolerated (they count toward the
totals but never as active/completed/high-priority) — and on empty inputs
it yields all-zero statistics. -/
theorem updateStatistics_total_without_nullish (users todos : List JVal)
    (hu : ∀ u ∈ users, notNullish u = true)
    (ht : ∀ t ∈ todos, notNullish t = true) :
    updateStatistics users todos = .ok (statsOf users todos) ∧
    updateStatistics [] [] = .ok ⟨0, 0, 0, 0, 0⟩ :=
  ⟨updateStatistics_ok hu ht, rfl⟩

/-- Witness for C5: a non-record (numeric) entry is tolerated and counted
only in the totals. -/
theorem updateStatistics_total_without_nullish_witness :
    updateStatistics [.num 7] [.str "x"] = .ok ⟨1, 0, 1, 0, 0⟩ :=
  ((updateStatistics_total_without_nullish [.num 7] [.str "x"]
    (by decide) (by decide)).1)

/-! ### Claim C4 — `addUser` validation failures -/

/-- C4: `addUser` rejects with no mutation: empty trimmed name or email
sets `errorMessage = "Name and email are required"`; otherwise a failing
email check sets `errorMessage = "Please enter a valid email address"`.
In both cases the whole state except `errorMessage` — in particular
`users`, `statistics` and `showUserForm` — is unchanged. -/
theorem addUser_rejects_without_mutation (s : DemoState) (name email : String) :
    (jsTrim name = "" ∨ jsTrim email = "" →
      addUser s name email =
        .ok { s with errorMessage := "Name and email are required" }) ∧
    (jsTrim name ≠ "" → jsTrim email ≠ "" → isValidEmail email = false →
      addUser s name email =
        .ok { s with errorMessage := "Please enter a valid email address" }) := by
  constructor
  · intro h
    unfold addUser
    rw [if_pos h]
  · intro h1 h2 h3
    unfold addUser
    rw [if_neg (not_or.mpr ⟨h1, h2⟩), if_pos (by simp [h3])]

/-- Witness for C4: both rejection branches at concrete inputs. -/
theorem addUser_rejects_without_mutation_witness :
    addUser (initState none 0) "  " "a@b.c" =
      .ok { initState none 0 with errorMessage := "Name and email are required" } ∧
    addUser (initState none 0) "Ann" "not-an-email" =
      .ok { initState none 0 with
              errorMessage := "Please enter a valid email address" } :=
  ⟨(addUser_rejects_without_mutation (initState none 0) "  " "a@b.c").1
      (Or.inl (by decide)),
   (addUser_rejects_without_mutation (initState none 0) "Ann" "not-an-email").2
      (by decide) (by decide) (by decide)⟩

/-! ### Well-formed record shapes -/

lemma wfUserB_shape {u : JVal} (h : wfUserB u = true) :
    ∃ i nm em a, u = .obj [("id", .num i), ("name", .str nm),
      ("email", .str em), ("isActive", .bool a)] := by
  unfold wfUserB at h
  split at h
  · next i nm em a => exact ⟨i, nm, em, a, rfl⟩
  · exact absurd h (by simp)

lemma wfTodoB_shape {t : JVal} (h : wfTodoB t = true) :
    ∃ i ti c p ms, t = .obj [("id", .num i), ("title", .str ti),
      ("completed", .bool c), ("priority", .str p),
      ("createdAt", .date (some ms))] ∧
      (p = "low" ∨ p = "medium" ∨ p = "high") := by
  unfold wfTodoB at h
  split at h
  · next i ti c p ms =>
    refine ⟨i, ti, c, p, ms, rfl, ?_⟩
    simpa [or_assoc] using h
  · exact absurd h (by simp)

lemma wfUserB_notNullish {u : JVal} (h : wfUserB u = true) :
    notNullish u = true := by
  obtain ⟨i, nm, em, a, rfl⟩ := wfUserB_shape h
  rfl

lemma wfTodoB_notNullish {t : JVal} (h : wfTodoB t = true) :
    notNullish t = true := by
  obtain ⟨i, ti, c, p, ms, rfl, -⟩ := wfTodoB_shape h
  rfl

lemma getF_id_of_wfUser {u : JVal} (h : wfUserB u = true) :
    ∃ i : Int, getF u "id" = .ok (.num i) := by
  obtain ⟨i, nm, em, a, rfl⟩ := wfUserB_shape h
  exact ⟨i, rfl⟩

/-! ### Computing `getNextUserId` on well-formed collections -/

lemma jsMapE_ok {f : JVal → Except Unit JVal} {g : JVal → JVal}
    {xs : List JVal} (hf : ∀ x ∈ xs, f x = .ok (g x)) :
    jsMapE f xs = .ok (xs.map g) := by
  induction xs with
  | nil => rfl
  | cons x xs ih =>
    have hx := hf x (List.mem_cons_self x xs)
    have ihr := ih (fun y hy => hf y (List.mem_cons_of_mem x hy))
    simp [jsMapE, hx, ihr, bind, Except.bind, pure, Except.pure]

lemma map_getFD_id_eq_idsOf {l : List JVal}
    (hwf : ∀ u ∈ l, wfUserB u = true) :
    l.map (fun u => getFD u "id") = (idsOf l).map JVal.num := by
  induction l with
  | nil => rfl
  | cons u l ih =>
    have ihr := ih (fun y hy => hwf y (List.mem_cons_of_mem u hy))
    obtain ⟨i, nm, em, a, rfl⟩ := wfUserB_shape (hwf u (List.mem_cons_self u l))
    have h1 : getFD (JVal.obj [("id", JVal.num i), ("name", JVal.str nm),
        ("email", JVal.str em), ("isActive", JVal.bool a)]) "id" =
        JVal.num i := rfl
    have h2 : idsOf (JVal.obj [("id", JVal.num i), ("name", JVal.str nm),
        ("email", JVal.str em), ("isActive", JVal.bool a)] :: l) =
        i :: idsOf l := rfl
    simp [h1, h2, ihr]

lemma jsMathMax_nums (ids : List Int) :
    jsMathMax (ids.map JVal.num) = .num (intMaxList ids) := by
  unfold jsMathMax
  rw [if_pos]
  · congr 1
    congr 1
    induction ids with
    | nil => rfl
    | cons i ids ih => simp [toNumber, ih]
  · simp only [List.all_eq_true]
    intro v hv
    obtain ⟨i, -, rfl⟩ := List.mem_map.mp hv
    rfl

/-- On a well-formed collection `getNextUserId` returns `max + 1` (`1` when
empty). -/
lemma getNextUserId_wf {users : List JVal}
    (hwf : ∀ u ∈ users, wfUserB u = true) :
    getNextUserId users =
      .ok (.num (if users.isEmpty then 1 else intMaxList (idsOf users) + 1)) := by
  unfold getNextUserId
  cases users with
  | nil => rfl
  | cons u us =>
    rw [if_pos (by simp)]
    rw [jsMapE_ok (g := fun u => getFD u "id")
      (fun x hx => getF_ok_of_notNullish (wfUserB_notNullish (hwf x hx)) "id")]
    rw [map_getFD_id_eq_idsOf hwf]
    simp [bind, Except.bind, pure, Except.pure, jsAdd1, jsMathMax_nums]

/-! ### Claim C3 — successful `addUser` -/

lemma splitAtFirstAt_eq {l a d : List Char}
    (h : splitAtFirstAt l = some (a, d)) : l = a ++ '@' :: d := by
  induction l generalizing a d with
  | nil => simp [splitAtFirstAt] at h
  | cons c cs ih =>
    by_cases hc : c = '@'
    · subst hc
      simp [splitAtFirstAt] at h
      obtain ⟨rfl, rfl⟩ := h
      rfl
    · simp [splitAtFirstAt, hc] at h
      obtain ⟨p, hp, rfl, rfl⟩ := h
      simpa using ih hp

lemma isValidEmail_at_mem {e : String} (h : isValidEmail e = true) :
    '@' ∈ e.data := by
  unfold isValidEmail at h
  split at h
  · exact absurd h (by simp)
  · next a d heq =>
    rw [splitAtFirstAt_eq heq]
    simp

lemma jsTrim_ne_empty_of_mem {s : String} {c : Char} (hmem : c ∈ s.data)
    (hc : c.isWhitespace = false) : jsTrim s ≠ "" := by
  intro h
  unfold jsTrim at h
  have h0 : (((s.data.dropWhile Char.isWhitespace).reverse.dropWhile
      Char.isWhitespace).reverse) = [] := by
    have := congrArg String.data h
    simpa using this
  rw [List.reverse_eq_nil_iff, List.dropWhile_eq_nil_iff] at h0
  have h1 : ∀ x ∈ s.data.dropWhile Char.isWhitespace, x.isWhitespace := by
    intro x hx
    exact h0 x (List.mem_reverse.mpr hx)
  have hsplit := List.takeWhile_append_dropWhile (p := Char.isWhitespace)
    (l := s.data)
  have hcases : c ∈ s.data.takeWhile Char.isWhitespace ∨
      c ∈ s.data.dropWhile Char.isWhitespace := by
    rw [← hsplit] at hmem
    exact List.mem_append.mp hmem
  rcases hcases with h2 | h2
  · exact absurd (List.mem_takeWhile_imp h2) (by simp [hc])
  · exact absurd (h1 c h2) (by simp [hc])

/-- C3 counterexample: `addUser` validates the *untrimmed* email, so an
email whose trimmed form matches the shape (here `" a@b.c "`, with
`jsTrim` applied matching the regular expression) is nevertheless
rejected with "Please enter a valid email address" and nothing is
appended — contradicting the claim, which promises an append whenever the
trimmed forms are valid. -/
theorem addUser_rejects_trimmed_valid_email :
    isValidEmail (jsTrim " a@b.c ") = true ∧
    jsTrim "X" ≠ "" ∧
    addUser (initState none 0) "X" " a@b.c " =
      .ok { initState none 0 with
              errorMessage := "Please enter a valid email address" } :=
  ⟨by decide, by decide, rfl⟩

/-- The user record a successful `addUser` appends: next id (`max + 1`, or
`1` on an empty collection), trimmed name, trimmed email, active. -/
@[reducible] def addedUser (s : DemoState) (name email : String) : JVal :=
  .obj [("id", .num (if s.users.isEmpty then 1
                     else intMaxList (idsOf s.users) + 1)),
        ("name", .str (jsTrim name)), ("email", .str (jsTrim email)),
        ("isActive", .bool true)]

/-- C3 amended: for every name with nonempty trimmed form and every email
that *itself* matches the email shape (such an email contains no
whitespace, so it equals its trimmed form), on a state whose users are
well-formed records (and whose todos contain no `null`/`undefined`
entries, so the statistics recomputation returns), `addUser` appends a
user with id `max(existing ids) + 1` (`1` if `users` is empty), the
trimmed name and email, `isActive = true`, recomputes `statistics`, sets
`errorMessage` to `""` and `showUserForm` to `false`. -/
theorem addUser_success_appends (s : DemoState) (name email : String)
    (hn : jsTrim name ≠ "") (he : isValidEmail email = true)
    (hwf : ∀ u ∈ s.users, wfUserB u = true)
    (ht : ∀ t ∈ s.todos, notNullish t = true) :
    addUser s name email =
      .ok { s with
        users := s.users ++ [addedUser s name email],
        statistics := statsOf (s.users ++ [addedUser s name email]) s.todos,
        errorMessage := "", showUserForm := false } := by
  have hemail_ne : jsTrim email ≠ "" :=
    jsTrim_ne_empty_of_mem (isValidEmail_at_mem he) (by decide)
  unfold addUser
  rw [if_neg (not_or.mpr ⟨hn, hemail_ne⟩), if_neg (by simp [he])]
  rw [getNextUserId_wf hwf]
  dsimp only
  rw [callStats_ok (s := { s with users := s.users ++ [addedUser s name email] })
    (by intro u hu
        rcases List.mem_append.mp hu with h | h
        · exact wfUserB_notNullish (hwf u h)
        · simp only [List.mem_singleton] at h
          subst h
          rfl)
    (by intro t htm
        exact ht t htm)]
  rfl

/-- Witness for C3 (amended): adding `Zoe` on the seeded state appends a
user with id 6. -/
theorem addUser_success_appends_witness :
    addUser (initState none 0) "Zoe" "zoe@mail.io" =
      .ok { initState none 0 with
        users := (initState none 0).users ++
          [addedUser (initState none 0) "Zoe" "zoe@mail.io"],
        statistics := statsOf ((initState none 0).users ++
          [addedUser (initState none 0) "Zoe" "zoe@mail.io"])
          (initState none 0).todos,
        errorMessage := "", showUserForm := false } :=
  addUser_success_appends (initState none 0) "Zoe" "zoe@mail.io"
    (by decide) (by decide) (by decide) (by decide)

/-! ### Claim C6 — `errorMessage` clearing discipline -/

/-- A state with a pending validation error, reached from the seeded
initial state by a failed `addUser` (empty name and email). -/
def stateWithError : DemoState :=
  runOps (initState none 0) [Op.addUser "" ""]

/-- C6 counterexample: a successful mutating user operation does *not*
clear a pending user-operation error.  From the seeded initial state a
failed `addUser` leaves `errorMessage = "Name and email are required"`;
the next `deleteUser 1` succeeds (one user is removed) yet the message is
still set, contradicting the claim that the next successful mutating
operation in the same category clears it. -/
theorem deleteUser_does_not_clear_error :
    stateWithError.errorMessage = "Name and email are required" ∧
    (deleteUser stateWithError 1).st.users.length + 1 =
      stateWithError.users.length ∧
    (deleteUser stateWithError 1).st.errorMessage =
      "Name and email are required" :=
  ⟨rfl, rfl, rfl⟩

/-- C6 amended: `errorMessage` is never modified — in particular never
cleared — by `deleteUser`, `toggleUserStatus`, the todo not-found-is-no-op
operations, the bulk operations, the sorts, `selectUser`, the timer tick
or `toggleTheme`; it is cleared exactly by a `reset`, by a successful
`addUser` or `addTodo` (one that changes its collection), and by an
`importData` whose parse and body succeed. -/
theorem errorMessage_clearing (s : DemoState) (uid : Int) (p : String)
    (now : Int) (v : JVal) :
    (deleteUser s uid).st.errorMessage = s.errorMessage ∧
    (toggleUserStatus s uid).st.errorMessage = s.errorMessage ∧
    (toggleTodo s uid).st.errorMessage = s.errorMessage ∧
    (deleteTodo s uid).st.errorMessage = s.errorMessage ∧
    (updateTodoPriority s uid p).st.errorMessage = s.errorMessage ∧
    (clearCompletedTodos s).st.errorMessage = s.errorMessage ∧
    (markAllTodosComplete s).st.errorMessage = s.errorMessage ∧
    (markAllTodosIncomplete s).st.errorMessage = s.errorMessage ∧
    (activateAllUsers s).st.errorMessage = s.errorMessage ∧
    (deactivateAllUsers s).st.errorMessage = s.errorMessage ∧
    (sortUsersByName s).errorMessage = s.errorMessage ∧
    (sortUsersByEmail s).errorMessage = s.errorMessage ∧
    (sortTodosByPriority s).errorMessage = s.errorMessage ∧
    (sortTodosByDate s).errorMessage = s.errorMessage ∧
    (selectUser s v).errorMessage = s.errorMessage ∧
    (tick s now).errorMessage = s.errorMessage ∧
    (toggleTheme s).errorMessage = s.errorMessage ∧
    (resetAllData s).st.errorMessage = "" ∧
    (resetToDefaults s).errorMessage = "" ∧
    (∀ s' n e, addUser s n e = .ok s' → s'.users ≠ s.users →
      s'.errorMessage = "") ∧
    (∀ s', addTodo s now = .ok s' → s'.todos ≠ s.todos →
      s'.errorMessage = "") ∧
    (∀ s' d, importBody s d = .ok s' → s'.errorMessage = "") := by
  refine ⟨?_, ?_, ?_, ?_, ?_, ?_, ?_, ?_, ?_, ?_, rfl, rfl, rfl, rfl, rfl,
    rfl, rfl, ?_, rfl, ?_, ?_, ?_⟩
  · unfold deleteUser
    cases h : jsFindIdxE (fun u => (getF u "id").map (jsEq · (.num uid))) s.users with
    | error e => rfl
    | ok r =>
      cases r with
      | none => rfl
      | some i =>
        dsimp only
        rw [callStats_errorMessage]
        split <;> rfl
  · unfold toggleUserStatus
    cases h : jsFindIdxE (fun u => (getF u "id").map (jsEq · (.num uid))) s.users with
    | error e => rfl
    | ok r =>
      cases r with
      | none => rfl
      | some i =>
        dsimp only
        cases setFieldE (s.users.getD i .undefined) "isActive"
            (.bool (! truthy (getFD (s.users.getD i .undefined) "isActive"))) with
        | error e => rfl
        | ok u' => exact callStats_errorMessage _
  · unfold toggleTodo
    cases h : jsFindIdxE (fun t => (getF t "id").map (jsEq · (.num uid))) s.todos with
    | error e => rfl
    | ok r =>
      cases r with
      | none => rfl
      | some i =>
        dsimp only
        cases setFieldE (s.todos.getD i .undefined) "completed"
            (.bool (! truthy (getFD (s.todos.getD i .undefined) "completed"))) with
        | error e => rfl
        | ok t' => exact callStats_errorMessage _
  · unfold deleteTodo
    cases h : jsFindIdxE (fun t => (getF t "id").map (jsEq · (.num uid))) s.todos with
    | error e => rfl
    | ok r =>
      cases r with
      | none => rfl
      | some i => exact callStats_errorMessage _
  · unfold updateTodoPriority
    cases h : jsFindIdxE (fun t => (getF t "id").map (jsEq · (.num uid))) s.todos with
    | error e => rfl
    | ok r =>
      cases r with
      | none => rfl
      | some i =>
        dsimp only
        cases setFieldE (s.todos.getD i .undefined) "priority" (.str p) with
        | error e => rfl
        | ok t' => exact callStats_errorMessage _
  · unfold clearCompletedTodos
    cases h : jsFilterE (fun t => (getF t "completed").map (fun c => ! truthy c)) s.todos with
    | error e => rfl
    | ok ts => exact callStats_errorMessage _
  · unfold markAllTodosComplete
    dsimp only
    split
    · rfl
    · exact callStats_errorMessage _
  · unfold markAllTodosIncomplete
    dsimp only
    split
    · rfl
    · exact callStats_errorMessage _
  · unfold activateAllUsers
    dsimp only
    split
    · rfl
    · exact callStats_errorMessage _
  · unfold deactivateAllUsers
    dsimp only
    split
    · rfl
    · exact callStats_errorMessage _
  · exact callStats_errorMessage _
  · intro s' n e h hne
    unfold addUser at h
    split at h
    · cases h
      exact absurd rfl hne
    · split at h
      · cases h
        exact absurd rfl hne
      · revert h
        cases getNextUserId s.users with
        | error e => intro h; cases h
        | ok idv =>
          dsimp only
          cases hcs : callStats _ with
          | ok t => intro h; cases h; rfl
          | thrown t => intro h; cases h
  · intro s' h hne
    unfold addTodo at h
    split at h
    · cases h
      exact absurd rfl hne
    · revert h
      cases getNextTodoId s.todos with
      | error e => intro h; cases h
      | ok idv =>
        dsimp only
        cases hcs : callStats _ with
        | ok t => intro h; cases h; rfl
        | thrown t => intro h; cases h
  · intro s' d h
    unfold importBody at h
    revert h
    cases getF d "users" with
    | error e => intro h; cases h
    | ok uv =>
      dsimp only
      cases getF d "todos" with
      | error e => intro h; cases h
      | ok tv =>
        dsimp only
        set s1 := if truthy uv && isArr uv then { s with users := arrElems uv } else s with hs1
        by_cases htv : (truthy tv && isArr tv) = true
        · rw [if_pos htv]
          cases jsMapE convTodo (arrElems tv) with
          | error e => intro h; cases h
          | ok ts =>
            dsimp only [JsOut.andThen]
            cases getF d "theme" with
            | error e => intro h; cases h
            | ok thv =>
              dsimp only
              cases hcs : callStats _ with
              | ok t => intro h; cases h; rfl
              | thrown t => intro h; cases h
        · rw [if_neg htv]
          dsimp only [JsOut.andThen]
          cases getF d "theme" with
          | error e => intro h; cases h
          | ok thv =>
            dsimp only
            cases hcs : callStats _ with
            | ok t => intro h; cases h; rfl
            | thrown t => intro h; cases h

/-- Witness for C6 (amended): on the state with a pending error, a
successful `deleteUser` keeps the message and a successful `addUser`
clears it. -/
theorem errorMessage_clearing_witness :
    (deleteUser stateWithError 1).st.errorMessage =
      "Name and email are required" ∧
    (addUser stateWithError "Zoe" "zoe@mail.io").st.errorMessage = "" := by
  constructor
  · rw [(errorMessage_clearing stateWithError 1 "" 0 .null).1]
    rfl
  · have h := (errorMessage_clearing stateWithError 1 "" 0 .null).2.2.2.2.2.2.2.2.2.2.2.2.2.2.2.2.2.2.2.1
    exact h (addUser stateWithError "Zoe" "zoe@mail.io").st "Zoe" "zoe@mail.io"
      rfl (fun hh => absurd (congrArg List.length hh) (by decide))

/-! ### Claim C8 — `deleteUser` -/

lemma jsFindIdxE_ok {p : JVal → Except Unit Bool} {pb : JVal → Bool}
    {xs : List JVal} (hp : ∀ x ∈ xs, p x = .ok (pb x)) :
    jsFindIdxE p xs = .ok (xs.findIdx? pb) := by
  induction xs with
  | nil => rfl
  | cons x xs ih =>
    have hx := hp x (List.mem_cons_self x xs)
    have ihr := ih (fun y hy => hp y (List.mem_cons_of_mem x hy))
    simp only [jsFindIdxE, hx, ihr, bind, Except.bind, List.findIdx?_cons]
    cases h : pb x with
    | true => simp [pure, Except.pure]
    | false =>
      simp only [Bool.false_eq_true, if_false, pure, Except.pure]
      rw [show (0 : Nat) + 1 = 0 + 1 from rfl, List.findIdx?_succ]

lemma findIdx_eraseIdx_eq_eraseP {pb : JVal → Bool} {l : List JVal} {i : Nat}
    (h : l.findIdx? pb = some i) : l.eraseIdx i = l.eraseP pb := by
  induction l generalizing i with
  | nil => simp [List.findIdx?] at h
  | cons x xs ih =>
    rw [List.findIdx?_cons] at h
    cases hx : pb x with
    | true =>
      rw [hx] at h
      simp only [if_true] at h
      cases h
      simp [List.eraseP_cons, hx]
    | false =>
      rw [hx] at h
      simp only [Bool.false_eq_true, if_false, List.findIdx?_succ] at h
      obtain ⟨j, hj, rfl⟩ := Option.map_eq_some'.mp h
      simp [List.eraseIdx, List.eraseP_cons, hx, ih hj]

/-- `deleteUser` is a complete no-op when no user matches. -/
lemma deleteUser_absent {s : DemoState} {uid : Int}
    (hwf : ∀ u ∈ s.users, wfUserB u = true)
    (habs : ∀ u ∈ s.users, jsEq (getFD u "id") (.num uid) = false) :
    deleteUser s uid = .ok s := by
  unfold deleteUser
  rw [jsFindIdxE_ok (fun x hx => by
    rw [getF_ok_of_notNullish (wfUserB_notNullish (hwf x hx))]; rfl)]
  rw [List.findIdx?_eq_none_iff.mpr habs]

/-- `deleteUser` removes the first matching user, clears a matching
selection, and recomputes statistics, when a match exists. -/
lemma deleteUser_present {s : DemoState} {uid : Int}
    (hwf : ∀ u ∈ s.users, wfUserB u = true)
    (ht : ∀ t ∈ s.todos, notNullish t = true)
    (hex : ∃ u ∈ s.users, jsEq (getFD u "id") (.num uid) = true) :
    deleteUser s uid = .ok
      { s with
        users := s.users.eraseP (fun u => jsEq (getFD u "id") (.num uid)),
        selectedUser :=
          if truthy s.selectedUser &&
              jsEq (getFD s.selectedUser "id") (.num uid)
          then .null else s.selectedUser,
        statistics :=
          statsOf (s.users.eraseP (fun u => jsEq (getFD u "id") (.num uid)))
            s.todos } := by
  have hfind : ∃ i, s.users.findIdx? (fun u => jsEq (getFD u "id") (.num uid)) =
      some i := by
    cases hi : s.users.findIdx? (fun u => jsEq (getFD u "id") (.num uid)) with
    | none =>
      obtain ⟨u, hu, hpu⟩ := hex
      exact absurd (List.findIdx?_eq_none_iff.mp hi u hu) (by simp [hpu])
    | some i => exact ⟨i, rfl⟩
  obtain ⟨i, hi⟩ := hfind
  unfold deleteUser
  rw [jsFindIdxE_ok (fun x hx => by
    rw [getF_ok_of_notNullish (wfUserB_notNullish (hwf x hx))]; rfl)]
  rw [hi]
  dsimp only
  rw [findIdx_eraseIdx_eq_eraseP hi]
  by_cases hsel : (truthy s.selectedUser &&
      jsEq (getFD s.selectedUser "id") (.num uid)) = true
  · rw [if_pos hsel, if_pos hsel,
      callStats_ok
        (by intro u hu
            exact wfUserB_notNullish (hwf u (List.mem_of_mem_eraseP hu)))
        (by intro t htm; exact ht t htm)]
  · rw [if_neg hsel, if_neg hsel,
      callStats_ok
        (by intro u hu
            exact wfUserB_notNullish (hwf u (List.mem_of_mem_eraseP hu)))
        (by intro t htm; exact ht t htm)]

lemma mem_idsOf_of_mem {l : List JVal} {u : JVal} {i : Int}
    (hu : u ∈ l) (hid : getF u "id" = .ok (.num i)) : i ∈ idsOf l := by
  unfold idsOf
  apply List.mem_filterMap.mpr
  exact ⟨u, hu, by rw [hid]⟩

/-- Under the uniqueness invariant, at most one user matches an id. -/
lemma countP_id_le_one {l : List JVal} {uid : Int}
    (hwf : ∀ u ∈ l, wfUserB u = true)
    (hids : (idsOf l).Pairwise (· ≠ ·)) :
    l.countP (fun u => jsEq (getFD u "id") (.num uid)) ≤ 1 := by
  induction l with
  | nil => simp
  | cons u us ih =>
    obtain ⟨i, nm, em, a, rfl⟩ := wfUserB_shape (hwf u (List.mem_cons_self u us))
    have hcons : idsOf (JVal.obj [("id", JVal.num i), ("name", JVal.str nm),
        ("email", JVal.str em), ("isActive", JVal.bool a)] :: us) =
        i :: idsOf us := rfl
    rw [hcons] at hids
    have hpair := List.pairwise_cons.mp hids
    rw [List.countP_cons]
    by_cases hpu : (jsEq (getFD (JVal.obj [("id", JVal.num i),
        ("name", JVal.str nm), ("email", JVal.str em),
        ("isActive", JVal.bool a)]) "id") (JVal.num uid)) = true
    · have hiu : i = uid := by
        have : (i == uid) = true := by
          simpa [getFD, getF, jsEq] using hpu
        exact of_decide_eq_true this
      subst hiu
      have hzero : us.countP (fun u => jsEq (getFD u "id") (.num i)) = 0 := by
        rw [List.countP_eq_zero]
        intro v hv
        obtain ⟨j, nj, ej, aj, rfl⟩ := wfUserB_shape
          (hwf v (List.mem_cons_of_mem _ hv))
        have hj : j ∈ idsOf us := mem_idsOf_of_mem hv rfl
        have hne := hpair.1 j hj
        simp [getFD, getF, jsEq]
        omega
      rw [hzero, hpu]
      simp
    · have hpu' := Bool.not_eq_true _ ▸ hpu
      rw [Bool.eq_false_iff.mpr hpu]
      simp only [Bool.false_eq_true, if_false, Nat.add_zero]
      exact ih (fun y hy => hwf y (List.mem_cons_of_mem _ hy)) hpair.2

lemma eraseP_no_match {pb : JVal → Bool} {l : List JVal}
    (hc : l.countP pb ≤ 1) : ∀ u ∈ l.eraseP pb, pb u = false := by
  induction l with
  | nil => simp
  | cons x xs ih =>
    rw [List.countP_cons] at hc
    cases hx : pb x with
    | true =>
      rw [List.eraseP_cons_of_pos hx]
      intro u hu
      rw [hx] at hc
      simp only [if_true] at hc
      have : xs.countP pb = 0 := by omega
      exact Bool.eq_false_iff.mpr (List.countP_eq_zero.mp this u hu)
    | false =>
      rw [List.eraseP_cons_of_neg (by simp [hx])]
      intro u hu
      rcases List.mem_cons.mp hu with rfl | hu'
      · exact hx
      · rw [hx] at hc
        simp only [Bool.false_eq_true, if_false] at hc
        exact ih (by omega) u hu'

/-- C8: with unique ids, `deleteUser uid` removes the unique matching user
when present (clearing a matching selection and recomputing statistics),
is a complete no-op — no error and no statistics recomputation — when
absent, and is idempotent: a second identical call leaves the state, in
particular the collection, unchanged. -/
theorem deleteUser_spec (s : DemoState) (uid : Int)
    (hwf : ∀ u ∈ s.users, wfUserB u = true)
    (hids : (idsOf s.users).Pairwise (· ≠ ·))
    (ht : ∀ t ∈ s.todos, notNullish t = true) :
    ((∀ u ∈ s.users, jsEq (getFD u "id") (.num uid) = false) →
      deleteUser s uid = .ok s) ∧
    ((∃ u ∈ s.users, jsEq (getFD u "id") (.num uid) = true) →
      deleteUser s uid = .ok
        { s with
          users := s.users.eraseP (fun u => jsEq (getFD u "id") (.num uid)),
          selectedUser :=
            if truthy s.selectedUser &&
                jsEq (getFD s.selectedUser "id") (.num uid)
            then .null else s.selectedUser,
          statistics :=
            statsOf
              (s.users.eraseP (fun u => jsEq (getFD u "id") (.num uid)))
              s.todos }) ∧
    (deleteUser (deleteUser s uid).st uid).st = (deleteUser s uid).st := by
  refine ⟨deleteUser_absent hwf, deleteUser_present hwf ht, ?_⟩
  by_cases hex : ∃ u ∈ s.users, jsEq (getFD u "id") (.num uid) = true
  · rw [deleteUser_present hwf ht hex]
    have hwf' : ∀ u ∈ s.users.eraseP
        (fun u => jsEq (getFD u "id") (.num uid)), wfUserB u = true :=
      fun u hu => hwf u (List.mem_of_mem_eraseP hu)
    have habs' := @eraseP_no_match
      (fun u => jsEq (getFD u "id") (.num uid)) s.users
      (countP_id_le_one hwf hids)
    rw [show (JsOut.ok _).st = _ from rfl]
    rw [deleteUser_absent hwf' habs']
    rfl
  · push_neg at hex
    have habs : ∀ u ∈ s.users, jsEq (getFD u "id") (.num uid) = false :=
      fun u hu => Bool.eq_false_iff.mpr (hex u hu)
    rw [deleteUser_absent hwf habs]
    rw [show (JsOut.ok s).st = s from rfl]
    rw [deleteUser_absent hwf habs]
    rfl

/-- Witness for C8: on the seeded state, deleting id 3 removes Bob and
deleting id 99 is a no-op. -/
theorem deleteUser_spec_witness :
    deleteUser (initState none 0) 99 = .ok (initState none 0) ∧
    (deleteUser (deleteUser (initState none 0) 3).st 3).st =
      (deleteUser (initState none 0) 3).st := by
  constructor
  · exact (deleteUser_spec (initState none 0) 99 (by decide) (by decide)
      (by decide)).1 (by decide)
  · exact (deleteUser_spec (initState none 0) 3 (by decide) (by decide)
      (by decide)).2.2

/-! ### Claim C7 — export/import round trip -/

lemma charToDigit_digitToChar {d : Nat} (h : d < 10) :
    charToDigit (digitToChar d) = some d := by
  interval_cases d <;> decide

lemma digitToChar_ne_dash (d : Nat) : digitToChar d ≠ '-' := by
  unfold digitToChar
  split <;> decide

lemma natDecL_ne_nil (n : Nat) : natDecL n ≠ [] := by
  unfold natDecL
  split
  · simp
  · next h =>
    simp only [ne_eq, List.reverse_eq_nil_iff, List.map_eq_nil_iff]
    exact Nat.digits_ne_nil_iff_ne_zero.mpr h

lemma natDecL_mem_digit {n : Nat} {c : Char} (h : c ∈ natDecL n) :
    ∃ d, d < 10 ∧ c = digitToChar d := by
  unfold natDecL at h
  split at h
  · refine ⟨0, by norm_num, ?_⟩
    simpa using h
  · rw [List.mem_reverse] at h
    obtain ⟨d, hd, rfl⟩ := List.mem_map.mp h
    exact ⟨d, Nat.digits_lt_base (by norm_num) hd, rfl⟩

lemma parseNatDecL_natDecL (n : Nat) : parseNatDecL (natDecL n) = some n := by
  by_cases h0 : n = 0
  · subst h0
    decide
  · unfold parseNatDecL
    rw [if_pos]
    · congr 1
      unfold natDecL
      rw [if_neg h0]
      rw [List.map_reverse, List.reverse_reverse, List.map_map]
      rw [List.map_congr_left (g := fun d => d)]
      · simp [Nat.ofDigits_digits]
      · intro d hd
        have hlt : d < 10 := Nat.digits_lt_base (by norm_num) hd
        simp [Function.comp, charToDigit_digitToChar hlt]
    · constructor
      · exact natDecL_ne_nil n
      · rw [List.all_eq_true]
        intro c hc
        obtain ⟨d, hlt, rfl⟩ := natDecL_mem_digit hc
        rw [charToDigit_digitToChar hlt]
        rfl

/-- Round trip of the timestamp codec: re-parsing a serialised valid
timestamp restores it exactly. -/
lemma parseTime_isoOfTime (t : Int) : parseTime (isoOfTime t) = some t := by
  by_cases h : t < 0
  · unfold isoOfTime
    rw [if_pos h]
    show (parseNatDecL (natDecL t.natAbs)).map (fun n => -(n : Int)) = some t
    rw [parseNatDecL_natDecL]
    show some (-(t.natAbs : Int)) = some t
    congr 1
    omega
  · unfold isoOfTime
    rw [if_neg h]
    obtain ⟨c, cs, hc⟩ : ∃ c cs, natDecL t.natAbs = c :: cs := by
      cases hn : natDecL t.natAbs with
      | nil => exact absurd hn (natDecL_ne_nil _)
      | cons c cs => exact ⟨c, cs, rfl⟩
    have hdash : c ≠ '-' := by
      have hmem : c ∈ natDecL t.natAbs := by rw [hc]; exact List.mem_cons_self c cs
      obtain ⟨d, -, rfl⟩ := natDecL_mem_digit hmem
      exact digitToChar_ne_dash d
    unfold parseTime
    have hdata : (String.mk (natDecL t.natAbs)).data = c :: cs := by rw [hc]
    rw [hdata]
    split
    · next rest heq =>
      exact absurd (List.cons.injEq .. ▸ heq).1 hdash
    · rw [← hc, parseNatDecL_natDecL]
      show some ((t.natAbs : Int)) = some t
      congr 1
      omega

lemma jsonNormL_eq_map (l : List JVal) : jsonNormL l = l.map jsonNorm := by
  induction l with
  | nil => rfl
  | cons x xs ih => rw [jsonNormL, List.map_cons, ih]

/-- A well-formed user record is already in JSON normal form. -/
lemma jsonNorm_wfUser {u : JVal} (h : wfUserB u = true) : jsonNorm u = u := by
  obtain ⟨i, nm, em, a, rfl⟩ := wfUserB_shape h
  simp [jsonNorm, jsonNormF]

/-- Serialising a well-formed todo turns its `createdAt` date into the ISO
string of its timestamp and leaves the other fields unchanged. -/
lemma jsonNorm_wfTodo {t : JVal} {i : Int} {ti : String} {c : Bool}
    {p : String} {ms : Int}
    (h : t = .obj [("id", .num i), ("title", .str ti),
      ("completed", .bool c), ("priority", .str p),
      ("createdAt", .date (some ms))]) :
    jsonNorm t = .obj [("id", .num i), ("title", .str ti),
      ("completed", .bool c), ("priority", .str p),
      ("createdAt", .str (isoOfTime ms))] := by
  subst h
  simp [jsonNorm, jsonNormF]

/-- Re-importing a serialised well-formed todo restores it exactly. -/
lemma convTodo_jsonNorm {t : JVal} (h : wfTodoB t = true) :
    convTodo (jsonNorm t) = .ok t := by
  obtain ⟨i, ti, c, p, ms, rfl, -⟩ := wfTodoB_shape h
  rw [jsonNorm_wfTodo rfl]
  unfold convTodo
  rw [show getF (JVal.obj [("id", JVal.num i), ("title", JVal.str ti),
    ("completed", JVal.bool c), ("priority", JVal.str p),
    ("createdAt", JVal.str (isoOfTime ms))]) "createdAt" =
    .ok (.str (isoOfTime ms)) from rfl]
  simp only [jsSpread, bind, Except.bind, pure, Except.pure]
  rw [show jsNewDate (JVal.str (isoOfTime ms)) =
    .date (parseTime (isoOfTime ms)) from rfl]
  rw [parseTime_isoOfTime]
  rw [show setFieldList [("id", JVal.num i), ("title", JVal.str ti),
    ("completed", JVal.bool c), ("priority", JVal.str p),
    ("createdAt", JVal.str (isoOfTime ms))] "createdAt"
    (JVal.date (some ms)) =
    [("id", JVal.num i), ("title", JVal.str ti), ("completed", JVal.bool c),
     ("priority", JVal.str p), ("createdAt", JVal.date (some ms))] from rfl]

lemma map_jsonNorm_users_id {l : List JVal}
    (h : ∀ u ∈ l, wfUserB u = true) : l.map jsonNorm = l := by
  induction l with
  | nil => rfl
  | cons u us ih =>
    rw [List.map_cons, jsonNorm_wfUser (h u (List.mem_cons_self u us)),
      ih (fun y hy => h y (List.mem_cons_of_mem _ hy))]

lemma jsMapE_convTodo_norm {l : List JVal}
    (h : ∀ t ∈ l, wfTodoB t = true) :
    jsMapE convTodo (l.map jsonNorm) = .ok l := by
  induction l with
  | nil => rfl
  | cons t ts ih =>
    rw [List.map_cons]
    simp only [jsMapE, convTodo_jsonNorm (h t (List.mem_cons_self t ts)),
      ih (fun y hy => h y (List.mem_cons_of_mem t hy)),
      bind, Except.bind, pure, Except.pure]

/-- C7: for every state whose `users` and `todos` are well-formed records
(and whose theme is one of the two valid theme strings), re-importing the
serialised export payload restores `users` element-wise, restores `todos`
element-wise with `createdAt` timestamps equal after re-parsing, and
leaves `theme` unchanged. -/
theorem export_import_roundtrip (s : DemoState) (now : Int)
    (hu : ∀ u ∈ s.users, wfUserB u = true)
    (ht : ∀ t ∈ s.todos, wfTodoB t = true)
    (hth : s.theme = .str "light" ∨ s.theme = .str "dark") :
    (importData s (some (jsonNorm (exportObj s now)))).users = s.users ∧
    (importData s (some (jsonNorm (exportObj s now)))).todos = s.todos ∧
    (importData s (some (jsonNorm (exportObj s now)))).theme = s.theme := by
  obtain ⟨th, hteq, hne⟩ : ∃ th, s.theme = JVal.str th ∧ th ≠ "" := by
    rcases hth with h | h
    · exact ⟨"light", h, by decide⟩
    · exact ⟨"dark", h, by decide⟩
  have hpay : jsonNorm (exportObj s now) =
      .obj [("users", .arr (s.users.map jsonNorm)),
            ("todos", .arr (s.todos.map jsonNorm)),
            ("theme", .str th),
            ("exportDate", .str (isoOfTime now))] := by
    rw [exportObj, hteq]
    simp [jsonNorm, jsonNormF, jsonNormL_eq_map]
  have hbody : importBody s (jsonNorm (exportObj s now)) =
      .ok { s with
        users := s.users, todos := s.todos, theme := .str th,
        statistics := statsOf s.users s.todos, errorMessage := "" } := by
    rw [hpay]
    unfold importBody
    rw [show getF (JVal.obj [("users", .arr (s.users.map jsonNorm)),
      ("todos", .arr (s.todos.map jsonNorm)), ("theme", .str th),
      ("exportDate", .str (isoOfTime now))]) "users" =
      .ok (.arr (s.users.map jsonNorm)) from rfl]
    dsimp only
    rw [show (truthy (JVal.arr (s.users.map jsonNorm)) &&
      isArr (JVal.arr (s.users.map jsonNorm))) = true from rfl]
    rw [show getF (JVal.obj [("users", .arr (s.users.map jsonNorm)),
      ("todos", .arr (s.todos.map jsonNorm)), ("theme", .str th),
      ("exportDate", .str (isoOfTime now))]) "todos" =
      .ok (.arr (s.todos.map jsonNorm)) from rfl]
    dsimp only
    rw [show (truthy (JVal.arr (s.todos.map jsonNorm)) &&
      isArr (JVal.arr (s.todos.map jsonNorm))) = true from rfl]
    rw [if_pos rfl, if_pos rfl]
    rw [show arrElems (JVal.arr (s.todos.map jsonNorm)) =
      s.todos.map jsonNorm from rfl]
    rw [jsMapE_convTodo_norm ht]
    dsimp only [JsOut.andThen]
    rw [show getF (JVal.obj [("users", .arr (s.users.map jsonNorm)),
      ("todos", .arr (s.todos.map jsonNorm)), ("theme", .str th),
      ("exportDate", .str (isoOfTime now))]) "theme" =
      .ok (.str th) from rfl]
    dsimp only
    rw [if_pos (show truthy (JVal.str th) = true by simp [truthy, hne])]
    rw [show arrElems (JVal.arr (s.users.map jsonNorm)) =
      s.users.map jsonNorm from rfl]
    rw [map_jsonNorm_users_id hu]
    rw [callStats_ok
      (by intro u huu; exact wfUserB_notNullish (hu u huu))
      (by intro t htt; exact wfTodoB_notNullish (ht t htt))]
    rfl
  show ((importData s (some (jsonNorm (exportObj s now)))).users = s.users ∧ _ ∧ _)
  unfold importData
  dsimp only
  rw [hbody]
  exact ⟨rfl, rfl, hteq.symm⟩

/-- Witness for C7: the seeded initial state round-trips. -/
theorem export_import_roundtrip_witness :
    (importData (initState none 0)
      (some (jsonNorm (exportObj (initState none 0) 42)))).users =
      (initState none 0).users ∧
    (importData (initState none 0)
      (some (jsonNorm (exportObj (initState none 0) 42)))).todos =
      (initState none 0).todos ∧
    (importData (initState none 0)
      (some (jsonNorm (exportObj (initState none 0) 42)))).theme =
      (initState none 0).theme :=
  export_import_roundtrip (initState none 0) 42 (by decide) (by decide)
    (Or.inl rfl)

/-! ### Claim C9 — `sortTodosByPriority` -/

lemma stableInsert_perm (keep : JVal → JVal → Bool) (x : JVal)
    (l : List JVal) : (stableInsert keep x l).Perm (x :: l) := by
  induction l with
  | nil => exact List.Perm.refl _
  | cons y ys ih =>
    unfold stableInsert
    split
    · exact ((ih.cons y).trans (List.Perm.swap x y ys))
    · exact List.Perm.refl _

lemma stableSort_perm (keep : JVal → JVal → Bool) (l : List JVal) :
    (stableSort keep l).Perm l := by
  induction l with
  | nil => exact List.Perm.refl _
  | cons x xs ih =>
    exact (stableInsert_perm keep x (stableSort keep xs)).trans (ih.cons x)

lemma stableInsert_pairwise {keep : JVal → JVal → Bool}
    {le : JVal → JVal → Prop} {P : JVal → Prop}
    (htr : ∀ a b c, le a b → le b c → le a c)
    (h1 : ∀ a b, P a → P b → keep a b = true → le a b)
    (h2 : ∀ a b, P a → P b → keep a b = false → le b a)
    {x : JVal} {l : List JVal} (hx : P x) (hl : ∀ a ∈ l, P a)
    (hs : l.Pairwise le) : (stableInsert keep x l).Pairwise le := by
  induction l with
  | nil => exact List.pairwise_singleton ..
  | cons y ys ih =>
    have hy := hl y (List.mem_cons_self y ys)
    have hys : ∀ a ∈ ys, P a := fun a ha => hl a (List.mem_cons_of_mem y ha)
    have hpw := List.pairwise_cons.mp hs
    unfold stableInsert
    split
    · next hkeep =>
      apply List.pairwise_cons.mpr
      constructor
      · intro z hz
        have hz' := (stableInsert_perm keep x ys).mem_iff.mp hz
        rcases List.mem_cons.mp hz' with rfl | hz''
        · exact h1 y z hy hx hkeep
        · exact hpw.1 z hz''
      · exact ih hys hpw.2
    · next hkeep =>
      apply List.pairwise_cons.mpr
      constructor
      · intro z hz
        rcases List.mem_cons.mp hz with h | hz'
        · subst h
          exact h2 _ _ hy hx (Bool.eq_false_iff.mpr hkeep)
        · exact htr x y z (h2 y x hy hx (Bool.eq_false_iff.mpr hkeep))
            (hpw.1 z hz')
      · exact hs

lemma stableSort_pairwise {keep : JVal → JVal → Bool}
    {le : JVal → JVal → Prop} {P : JVal → Prop}
    (htr : ∀ a b c, le a b → le b c → le a c)
    (h1 : ∀ a b, P a → P b → keep a b = true → le a b)
    (h2 : ∀ a b, P a → P b → keep a b = false → le b a)
    {l : List JVal} (hl : ∀ a ∈ l, P a) :
    (stableSort keep l).Pairwise le := by
  induction l with
  | nil => exact List.Pairwise.nil
  | cons x xs ih =>
    refine stableInsert_pairwise htr h1 h2
      (hl x (List.mem_cons_self x xs)) ?_
      (ih (fun a ha => hl a (List.mem_cons_of_mem x ha)))
    intro a ha
    exact hl a (List.mem_cons_of_mem x
      ((stableSort_perm keep xs).mem_iff.mp ha))

lemma stableInsert_filter {keep : JVal → JVal → Bool} {q : JVal → Bool}
    {x : JVal} {l : List JVal}
    (hq : ∀ y, q y = true → q x = true → keep y x = false) :
    (stableInsert keep x l).filter q =
      if q x then x :: l.filter q else l.filter q := by
  induction l with
  | nil =>
    unfold stableInsert
    rw [List.filter_singleton]
    split <;> simp_all
  | cons y ys ih =>
    unfold stableInsert
    by_cases hkeep : keep y x = true
    · rw [if_pos hkeep, List.filter_cons]
      by_cases hqy : q y = true
      · have hqx : q x = false := by
          by_contra hqx
          have hf := hq y hqy (by simpa using hqx)
          rw [hf] at hkeep
          exact Bool.false_ne_true hkeep
      
        simp [hqy, hqx, ih, List.filter_cons]
      · simp [Bool.eq_false_iff.mpr hqy, ih, List.filter_cons]
    · rw [if_neg (by simpa using hkeep), List.filter_cons]

lemma stableSort_filter {keep : JVal → JVal → Bool} {q : JVal → Bool}
    (hq : ∀ a b, q a = true → q b = true → keep a b = false)
    (l : List JVal) :
    (stableSort keep l).filter q = l.filter q := by
  induction l with
  | nil => rfl
  | cons x xs ih =>
    unfold stableSort
    rw [stableInsert_filter (fun y hy hx => hq y x hy hx), ih,
      List.filter_cons]

lemma jsEq_str_iff {v : JVal} {p : String} :
    jsEq v (.str p) = true ↔ v = .str p := by
  cases v <;> simp [jsEq]

/-- C9: `sortTodosByPriority` permutes `todos`, orders them by
non-increasing severity rank (high = 3, medium = 2, low = 1 — so the
mapped rank sequence is non-increasing), and keeps the previous relative
order of todos of equal priority (stability). -/
theorem sortTodosByPriority_spec (s : DemoState)
    (ht : ∀ t ∈ s.todos, wfTodoB t = true) :
    (sortTodosByPriority s).todos.Perm s.todos ∧
    ((sortTodosByPriority s).todos.map
        (fun t => (priorityRank t).getD 0)).Pairwise (fun a b => b ≤ a) ∧
    (∀ p : String,
      (sortTodosByPriority s).todos.filter
          (fun t => jsEq (getFD t "priority") (.str p)) =
        s.todos.filter (fun t => jsEq (getFD t "priority") (.str p))) := by
  refine ⟨stableSort_perm _ _, ?_, ?_⟩
  · rw [List.pairwise_map]
    apply @stableSort_pairwise _
      (fun a b => (priorityRank b).getD 0 ≤ (priorityRank a).getD 0)
      (fun t => (priorityRank t).isSome)
    · intro a b c hab hbc
      omega
    · intro a b ha hb hkeep
      obtain ⟨ra, hra⟩ := Option.isSome_iff_exists.mp ha
      obtain ⟨rb, hrb⟩ := Option.isSome_iff_exists.mp hb
      rw [hra, hrb] at hkeep ⊢
      simp only [Option.getD_some]
      simp only [hra, hrb] at hkeep
      have : rb < ra := by simpa using hkeep
      omega
    · intro a b ha hb hkeep
      obtain ⟨ra, hra⟩ := Option.isSome_iff_exists.mp ha
      obtain ⟨rb, hrb⟩ := Option.isSome_iff_exists.mp hb
      rw [hra, hrb] at hkeep ⊢
      simp only [Option.getD_some]
      simp only [hra, hrb] at hkeep
      have : ¬ rb < ra := by simpa using hkeep
      omega
    · intro t htm
      obtain ⟨i, ti, c, p, ms, rfl, hp⟩ := wfTodoB_shape (ht t htm)
      have : priorityRank (JVal.obj [("id", JVal.num i),
        ("title", JVal.str ti), ("completed", JVal.bool c),
        ("priority", JVal.str p),
        ("createdAt", JVal.date (some ms))]) = priorityOrderOf p := rfl
      rw [this]
      rcases hp with rfl | rfl | rfl <;> decide
  · intro p
    apply stableSort_filter
    intro a b hqa hqb
    have ha := jsEq_str_iff.mp hqa
    have hb := jsEq_str_iff.mp hqb
    show (match priorityRank a, priorityRank b with
      | some ry, some rx => decide (rx < ry)
      | _, _ => false) = false
    unfold priorityRank
    rw [ha, hb]
    dsimp only
    rcases hpo : priorityOrderOf p with _ | r <;> simp [hpo]

/-- Witness for C9: sorting the seeded todos. -/
theorem sortTodosByPriority_spec_witness :
    (sortTodosByPriority (initState none 0)).todos.Perm
      (initState none 0).todos ∧
    ((sortTodosByPriority (initState none 0)).todos.map
        (fun t => (priorityRank t).getD 0)).Pairwise (fun a b => b ≤ a) ∧
    (∀ p : String,
      (sortTodosByPriority (initState none 0)).todos.filter
          (fun t => jsEq (getFD t "priority") (.str p)) =
        (initState none 0).todos.filter
          (fun t => jsEq (getFD t "priority") (.str p))) :=
  sortTodosByPriority_spec (initState none 0) (by decide)

/-! ### Claim C1 — id uniqueness under operation sequences -/

/-- The users-collection invariant maintained by every non-import
operation: all elements are well-formed user records and their ids are
pairwise distinct. -/
def InvUsers (s : DemoState) : Prop :=
  (∀ u ∈ s.users, wfUserB u = true) ∧ (idsOf s.users).Pairwise (· ≠ ·)

lemma uniqueIds_of_wf_pairwise {l : List JVal}
    (hwf : ∀ u ∈ l, wfUserB u = true)
    (hids : (idsOf l).Pairwise (· ≠ ·)) : UniqueIds l := by
  unfold UniqueIds
  induction l with
  | nil => exact List.Pairwise.nil
  | cons u us ih =>
    obtain ⟨i, nm, em, a, hu⟩ := wfUserB_shape (hwf u (List.mem_cons_self u us))
    have hcons : idsOf (u :: us) = i :: idsOf us := by rw [hu]; rfl
    rw [hcons] at hids
    have hpw := List.pairwise_cons.mp hids
    apply List.pairwise_cons.mpr
    constructor
    · intro v hv hsame
      obtain ⟨j, hju, hjv⟩ := hsame
      obtain ⟨k, nk, ek, ak, hk⟩ := wfUserB_shape
        (hwf v (List.mem_cons_of_mem u hv))
      have hid_u : getF u "id" = .ok (.num i) := by rw [hu]; rfl
      have hid_v : getF v "id" = .ok (.num k) := by rw [hk]; rfl
      rw [hid_u] at hju
      rw [hid_v] at hjv
      have hji : i = j := by simpa using hju
      have hjk : k = j := by simpa using hjv
      have hmem : k ∈ idsOf us := mem_idsOf_of_mem hv hid_v
      exact hpw.1 k hmem (by omega)
    · exact ih (fun y hy => hwf y (List.mem_cons_of_mem u hy)) hpw.2

lemma uniqueIds_of_invUsers {s : DemoState} (h : InvUsers s) :
    UniqueIds s.users :=
  uniqueIds_of_wf_pairwise h.1 h.2

lemma invUsers_of_users_eq {s s' : DemoState} (h : s'.users = s.users)
    (hinv : InvUsers s) : InvUsers s' := by
  unfold InvUsers
  rw [h]
  exact hinv

lemma callStats_mapOk_st_users (t : DemoState) (f : DemoState → DemoState)
    (hf : ∀ x, (f x).users = x.users) :
    ((callStats t).mapOk f).st.users = t.users := by
  unfold callStats
  cases updateStatistics t.users t.todos <;> simp [JsOut.mapOk, JsOut.st, hf]

lemma le_foldl_max_init (ys : List Int) (y : Int) : y ≤ ys.foldl max y := by
  induction ys generalizing y with
  | nil => exact le_refl y
  | cons z zs ih =>
    exact le_trans (le_max_left y z) (ih (max y z))

lemma mem_le_foldl_max {ys : List Int} {x : Int} (h : x ∈ ys) (y : Int) :
    x ≤ ys.foldl max y := by
  induction ys generalizing y with
  | nil => cases h
  | cons z zs ih =>
    rcases List.mem_cons.mp h with rfl | h'
    · exact le_trans (le_max_right y x) (le_foldl_max_init zs (max y x))
    · exact ih h' (max y z)

lemma intMaxList_ge {l : List Int} {x : Int} (h : x ∈ l) :
    x ≤ intMaxList l := by
  cases l with
  | nil => cases h
  | cons y ys =>
    unfold intMaxList
    rcases List.mem_cons.mp h with rfl | h'
    · exact le_foldl_max_init ys x
    · exact mem_le_foldl_max h' y

lemma idsOf_append (l1 l2 : List JVal) :
    idsOf (l1 ++ l2) = idsOf l1 ++ idsOf l2 := by
  unfold idsOf
  rw [List.filterMap_append]

lemma idsOf_sublist {l1 l2 : List JVal} (h : l1.Sublist l2) :
    (idsOf l1).Sublist (idsOf l2) := by
  unfold idsOf
  exact h.filterMap _

/-- Flipping `isActive` on a well-formed user record keeps it well formed
and keeps its id. -/
lemma setActive_wf {u : JVal} (h : wfUserB u = true) (b : Bool) :
    ∃ u', setFieldE u "isActive" (.bool b) = .ok u' ∧ wfUserB u' = true ∧
      getF u' "id" = getF u "id" := by
  obtain ⟨i, nm, em, a, rfl⟩ := wfUserB_shape h
  exact ⟨.obj [("id", .num i), ("name", .str nm), ("email", .str em),
    ("isActive", .bool b)], rfl, rfl, rfl⟩

/-- Replacing an element by one with the same extracted id keeps `idsOf`. -/
lemma idsOf_set {l : List JVal} {i : Nat} {u' : JVal}
    (hid : getF u' "id" = getF (l.getD i .undefined) "id") :
    idsOf (l.set i u') = idsOf l := by
  induction l generalizing i with
  | nil => rfl
  | cons x xs ih =>
    cases i with
    | zero =>
      simp only [List.set_cons_zero]
      unfold idsOf
      rw [List.filterMap_cons, List.filterMap_cons]
      rw [show (x :: xs).getD 0 .undefined = x from rfl] at hid
      rw [hid]
    | succ j =>
      simp only [List.set_cons_succ]
      unfold idsOf
      rw [List.filterMap_cons, List.filterMap_cons]
      have hih := ih (show getF u' "id" = getF (xs.getD j .undefined) "id" from hid)
      unfold idsOf at hih
      rw [hih]

/-- `forEach`-setting `isActive` on a well-formed collection never throws,
keeps every record well formed, and keeps the id list. -/
lemma bulkSetField_isActive_wf {l : List JVal} (b : Bool)
    (h : ∀ u ∈ l, wfUserB u = true) :
    ∃ l', bulkSetField "isActive" (.bool b) l = (l', false) ∧
      (∀ u ∈ l', wfUserB u = true) ∧ idsOf l' = idsOf l := by
  induction l with
  | nil => exact ⟨[], rfl, by simp, rfl⟩
  | cons u us ih =>
    obtain ⟨i, nm, em, a, rfl⟩ := wfUserB_shape (h u (List.mem_cons_self u us))
    obtain ⟨l', hl', hwf', hids'⟩ :=
      ih (fun y hy => h y (List.mem_cons_of_mem _ hy))
    refine ⟨.obj [("id", .num i), ("name", .str nm), ("email", .str em),
      ("isActive", .bool b)] :: l', ?_, ?_, ?_⟩
    · unfold bulkSetField
      rw [show setFieldE (JVal.obj [("id", JVal.num i), ("name", JVal.str nm),
        ("email", JVal.str em), ("isActive", JVal.bool a)]) "isActive"
        (JVal.bool b) = .ok (.obj [("id", JVal.num i), ("name", JVal.str nm),
        ("email", JVal.str em), ("isActive", JVal.bool b)]) from rfl]
      rw [hl']
    · intro v hv
      rcases List.mem_cons.mp hv with rfl | hv'
      · rfl
      · exact hwf' v hv'
    · unfold idsOf
      rw [List.filterMap_cons, List.filterMap_cons]
      unfold idsOf at hids'
      rw [hids']
      rfl

lemma invUsers_addUser {s : DemoState} (hinv : InvUsers s)
    (name email : String) : InvUsers (addUser s name email).st := by
  unfold addUser
  split
  · exact invUsers_of_users_eq rfl hinv
  · split
    · exact invUsers_of_users_eq rfl hinv
    · rw [getNextUserId_wf hinv.1]
      dsimp only
      have husers := callStats_mapOk_st_users
        { s with users := s.users ++ [JVal.obj
            [("id", .num (if s.users.isEmpty then 1
                          else intMaxList (idsOf s.users) + 1)),
             ("name", .str (jsTrim name)), ("email", .str (jsTrim email)),
             ("isActive", .bool true)]] }
        (fun t => { t with errorMessage := "", showUserForm := false })
        (fun x => rfl)
      constructor
      · rw [husers]
        intro u hu
        rcases List.mem_append.mp hu with h | h
        · exact hinv.1 u h
        · rcases List.mem_singleton.mp h with rfl
          rfl
      · rw [husers, idsOf_append]
        rw [show idsOf [JVal.obj
            [("id", .num (if s.users.isEmpty then 1
                          else intMaxList (idsOf s.users) + 1)),
             ("name", .str (jsTrim name)), ("email", .str (jsTrim email)),
             ("isActive", .bool true)]] =
          [if s.users.isEmpty then 1
           else intMaxList (idsOf s.users) + 1] from rfl]
        rw [List.pairwise_append]
        refine ⟨hinv.2, List.pairwise_singleton .., ?_⟩
        intro a ha b hb
        rw [List.mem_singleton.mp hb]
        by_cases hemp : s.users.isEmpty
        · rw [show s.users = [] from List.isEmpty_iff.mp hemp] at ha
          cases ha
        · rw [if_neg hemp]
          have := intMaxList_ge ha
          omega

lemma invUsers_deleteUser {s : DemoState} (hinv : InvUsers s)
    (uid : Int) : InvUsers (deleteUser s uid).st := by
  unfold deleteUser
  cases jsFindIdxE (fun u => (getF u "id").map (jsEq · (.num uid))) s.users with
  | error e => exact invUsers_of_users_eq rfl hinv
  | ok r =>
    cases r with
    | none => exact invUsers_of_users_eq rfl hinv
    | some i =>
      dsimp only
      have hsub : (s.users.eraseIdx i).Sublist s.users :=
        List.eraseIdx_sublist s.users i
      have hbase : InvUsers { s with users := s.users.eraseIdx i } :=
        ⟨fun u hu => hinv.1 u (hsub.subset hu),
         List.Pairwise.sublist (idsOf_sublist hsub) hinv.2⟩
      split
      · have := callStats_users
          { s with users := s.users.eraseIdx i, selectedUser := .null }
        exact invUsers_of_users_eq (by rw [this]) hbase
      · have := callStats_users { s with users := s.users.eraseIdx i }
        exact invUsers_of_users_eq (by rw [this]) hbase

lemma invUsers_toggleUserStatus {s : DemoState} (hinv : InvUsers s)
    (uid : Int) : InvUsers (toggleUserStatus s uid).st := by
  unfold toggleUserStatus
  cases jsFindIdxE (fun u => (getF u "id").map (jsEq · (.num uid))) s.users with
  | error e => exact invUsers_of_users_eq rfl hinv
  | ok r =>
    cases r with
    | none => exact invUsers_of_users_eq rfl hinv
    | some i =>
      dsimp only
      by_cases hi : i < s.users.length
      · have hmem : s.users.getD i .undefined ∈ s.users := by
          rw [List.getD_eq_getElem _ _ hi]
          exact List.getElem_mem hi
        obtain ⟨u', hset, hwf', hid'⟩ :=
          setActive_wf (hinv.1 _ hmem)
            (! truthy (getFD (s.users.getD i .undefined) "isActive"))
        rw [hset]
        dsimp only
        have husers := callStats_users { s with users := s.users.set i u' }
        have hX : InvUsers { s with users := s.users.set i u' } := by
          constructor
          · intro v hv
            have hv' : v ∈ s.users.set i u' := hv
            rcases List.mem_or_eq_of_mem_set hv' with h | rfl
            · exact hinv.1 v h
            · exact hwf'
          · show (idsOf (s.users.set i u')).Pairwise (· ≠ ·)
            rw [idsOf_set hid']
            exact hinv.2
        exact invUsers_of_users_eq husers hX
      · have hundef : s.users.getD i .undefined = .undefined :=
          List.getD_eq_default _ _ (by omega)
        rw [hundef]
        rw [show setFieldE JVal.undefined "isActive"
          (.bool (! truthy (getFD JVal.undefined "isActive"))) = .error () from rfl]
        exact invUsers_of_users_eq rfl hinv

lemma invUsers_activateAllUsers {s : DemoState} (hinv : InvUsers s) :
    InvUsers (activateAllUsers s).st := by
  unfold activateAllUsers
  obtain ⟨l', hl', hwf', hids'⟩ := bulkSetField_isActive_wf true hinv.1
  rw [hl']
  dsimp only
  rw [if_neg (by simp)]
  have husers := callStats_users { s with users := l' }
  have hX : InvUsers { s with users := l' } := by
    constructor
    · intro u hu
      exact hwf' u hu
    · show (idsOf l').Pairwise (· ≠ ·)
      rw [hids']
      exact hinv.2
  exact invUsers_of_users_eq husers hX

lemma invUsers_deactivateAllUsers {s : DemoState} (hinv : InvUsers s) :
    InvUsers (deactivateAllUsers s).st := by
  unfold deactivateAllUsers
  obtain ⟨l', hl', hwf', hids'⟩ := bulkSetField_isActive_wf false hinv.1
  rw [hl']
  dsimp only
  rw [if_neg (by simp)]
  have husers := callStats_users { s with users := l' }
  have hX : InvUsers { s with users := l' } := by
    constructor
    · intro u hu
      exact hwf' u hu
    · show (idsOf l').Pairwise (· ≠ ·)
      rw [hids']
      exact hinv.2
  exact invUsers_of_users_eq husers hX

lemma invUsers_sort {s : DemoState} (hinv : InvUsers s)
    (keep : JVal → JVal → Bool) :
    InvUsers { s with users := stableSort keep s.users } := by
  have hperm := stableSort_perm keep s.users
  constructor
  · intro u hu
    exact hinv.1 u (hperm.mem_iff.mp hu)
  · have hidsperm : (idsOf (stableSort keep s.users)).Perm (idsOf s.users) :=
      hperm.filterMap _
    show (idsOf (stableSort keep s.users)).Pairwise (· ≠ ·)
    exact (hidsperm.pairwise_iff (fun h => Ne.symm h)).mpr hinv.2

lemma addTodo_users (s : DemoState) (now : Int) :
    (addTodo s now).st.users = s.users := by
  unfold addTodo
  split
  · rfl
  · cases getNextTodoId s.todos with
    | error e => rfl
    | ok idv =>
      dsimp only
      exact callStats_mapOk_st_users _ _ (fun x => rfl)

lemma toggleTodo_users (s : DemoState) (todoId : Int) :
    (toggleTodo s todoId).st.users = s.users := by
  unfold toggleTodo
  cases jsFindIdxE (fun t => (getF t "id").map (jsEq · (.num todoId))) s.todos with
  | error e => rfl
  | ok r =>
    cases r with
    | none => rfl
    | some i =>
      dsimp only
      cases setFieldE (s.todos.getD i .undefined) "completed"
          (.bool (! truthy (getFD (s.todos.getD i .undefined) "completed"))) with
      | error e => rfl
      | ok t' => exact callStats_users _

lemma deleteTodo_users (s : DemoState) (todoId : Int) :
    (deleteTodo s todoId).st.users = s.users := by
  unfold deleteTodo
  cases jsFindIdxE (fun t => (getF t "id").map (jsEq · (.num todoId))) s.todos with
  | error e => rfl
  | ok r =>
    cases r with
    | none => rfl
    | some i => exact callStats_users _

lemma updateTodoPriority_users (s : DemoState) (todoId : Int) (p : String) :
    (updateTodoPriority s todoId p).st.users = s.users := by
  unfold updateTodoPriority
  cases jsFindIdxE (fun t => (getF t "id").map (jsEq · (.num todoId))) s.todos with
  | error e => rfl
  | ok r =>
    cases r with
    | none => rfl
    | some i =>
      dsimp only
      cases setFieldE (s.todos.getD i .undefined) "priority" (.str p) with
      | error e => rfl
      | ok t' => exact callStats_users _

lemma clearCompletedTodos_users (s : DemoState) :
    (clearCompletedTodos s).st.users = s.users := by
  unfold clearCompletedTodos
  cases jsFilterE (fun t => (getF t "completed").map (fun c => ! truthy c))
      s.todos with
  | error e => rfl
  | ok ts => exact callStats_users _

lemma markAllTodosComplete_users (s : DemoState) :
    (markAllTodosComplete s).st.users = s.users := by
  unfold markAllTodosComplete
  dsimp only
  split
  · rfl
  · exact callStats_users _

lemma markAllTodosIncomplete_users (s : DemoState) :
    (markAllTodosIncomplete s).st.users = s.users := by
  unfold markAllTodosIncomplete
  dsimp only
  split
  · rfl
  · exact callStats_users _

lemma invUsers_resetAllData (s : DemoState) :
    InvUsers (resetAllData s).st := by
  unfold resetAllData
  have husers := callStats_users
    { s with users := [], todos := [], selectedUser := .null,
             userSearchTerm := "", newTodoTitle := "", errorMessage := "" }
  exact invUsers_of_users_eq husers ⟨by simp, List.Pairwise.nil⟩

lemma invUsers_resetToDefaults (s : DemoState) :
    InvUsers (resetToDefaults s) := by
  unfold resetToDefaults loadInitialUsers loadInitialTodos
  have h1 := callStats_users { s with users := seedUsers }
  have h2 := callStats_users
    { (callStats { s with users := seedUsers }).st with todos := seedTodos }
  have hseedwf : ∀ u ∈ seedUsers, wfUserB u = true := by decide
  have hseedids : (idsOf seedUsers).Pairwise (· ≠ ·) := by decide
  constructor
  · intro u hu
    apply hseedwf
    rw [show (callStats { (callStats { s with users := seedUsers }).st with
      todos := seedTodos }).st.users = seedUsers from by rw [h2]; rw [h1]]
      at hu
    exact hu
  · show (idsOf (callStats { (callStats { s with users := seedUsers }).st with
      todos := seedTodos }).st.users).Pairwise (· ≠ ·)
    rw [show (callStats { (callStats { s with users := seedUsers }).st with
      todos := seedTodos }).st.users = seedUsers from by rw [h2]; rw [h1]]
    exact hseedids

/-- Preservation of the users invariant by every non-import operation. -/
lemma invUsers_runOp {s : DemoState} (hinv : InvUsers s) {op : Op}
    (hop : op.isImport = false) : InvUsers (runOp s op) := by
  cases op with
  | addUser name email => exact invUsers_addUser hinv name email
  | deleteUser userId => exact invUsers_deleteUser hinv userId
  | toggleUserStatus userId => exact invUsers_toggleUserStatus hinv userId
  | selectUser u => exact invUsers_of_users_eq rfl hinv
  | addTodo now => exact invUsers_of_users_eq (addTodo_users s now) hinv
  | toggleTodo todoId => exact invUsers_of_users_eq (toggleTodo_users s todoId) hinv
  | deleteTodo todoId => exact invUsers_of_users_eq (deleteTodo_users s todoId) hinv
  | updateTodoPriority todoId p =>
    exact invUsers_of_users_eq (updateTodoPriority_users s todoId p) hinv
  | clearCompletedTodos =>
    exact invUsers_of_users_eq (clearCompletedTodos_users s) hinv
  | markAllTodosComplete =>
    exact invUsers_of_users_eq (markAllTodosComplete_users s) hinv
  | markAllTodosIncomplete =>
    exact invUsers_of_users_eq (markAllTodosIncomplete_users s) hinv
  | activateAllUsers => exact invUsers_activateAllUsers hinv
  | deactivateAllUsers => exact invUsers_deactivateAllUsers hinv
  | sortUsersByName => exact invUsers_sort hinv _
  | sortUsersByEmail => exact invUsers_sort hinv _
  | sortTodosByPriority => exact invUsers_of_users_eq rfl hinv
  | sortTodosByDate => exact invUsers_of_users_eq rfl hinv
  | resetAllData => exact invUsers_resetAllData s
  | resetToDefaults => exact invUsers_resetToDefaults s
  | toggleTheme => exact invUsers_of_users_eq rfl hinv
  | tick now => exact invUsers_of_users_eq rfl hinv
  | setNewTodoTitle t => exact invUsers_of_users_eq rfl hinv
  | setUserSearchTerm t => exact invUsers_of_users_eq rfl hinv
  | setSelectedPriority p => exact invUsers_of_users_eq rfl hinv
  | setTodoFilter f => exact invUsers_of_users_eq rfl hinv
  | importData parsed => exact absurd hop (by simp [Op.isImport])

lemma initState_users (saved : Option String) (t0 : Int) :
    (initState saved t0).users = seedUsers := by
  unfold initState loadInitialUsers loadInitialTodos
  rw [callStats_users, callStats_users]

lemma invUsers_initState (saved : Option String) (t0 : Int) :
    InvUsers (initState saved t0) := by
  have hseedwf : ∀ u ∈ seedUsers, wfUserB u = true := by decide
  have hseedids : (idsOf seedUsers).Pairwise (· ≠ ·) := by decide
  constructor
  · intro u hu
    rw [initState_users] at hu
    exact hseedwf u hu
  · rw [initState_users]
    exact hseedids

/-- An import payload carrying two users with the same id. -/
def dupIdPayload : JVal :=
  .obj [("users", .arr [.obj [("id", .num 1), ("name", .str "A"),
                              ("email", .str "a@a.io"), ("isActive", .bool true)],
                        .obj [("id", .num 1), ("name", .str "B"),
                              ("email", .str "b@b.io"), ("isActive", .bool true)]])]

/-- C1 counterexample: the uniqueness invariant does *not* hold after every
sequence of public operations — a single `importData` whose parseable
payload carries two users with id 1 replaces `users` wholesale (no
validation), succeeds, and leaves two elements with the same id. -/
theorem unique_ids_violated_by_import :
    ¬ UniqueIds (runOps (initState none 0)
      [Op.importData (some dupIdPayload)]).users := by
  intro h
  have husers : (runOps (initState none 0)
      [Op.importData (some dupIdPayload)]).users =
      [.obj [("id", .num 1), ("name", .str "A"),
             ("email", .str "a@a.io"), ("isActive", .bool true)],
       .obj [("id", .num 1), ("name", .str "B"),
             ("email", .str "b@b.io"), ("isActive", .bool true)]] := rfl
  rw [husers] at h
  have hrel := (List.pairwise_cons.mp h).1 _ (List.mem_cons_self _ _)
  exact hrel ⟨1, rfl, rfl⟩

lemma invUsers_runOps {s : DemoState} (hs : InvUsers s) {ops : List Op}
    (h : ∀ op ∈ ops, op.isImport = false) : InvUsers (runOps s ops) := by
  induction ops generalizing s with
  | nil => exact hs
  | cons op rest ih =>
    exact ih (invUsers_runOp hs (h op (List.mem_cons_self op rest)))
      (fun o ho => h o (List.mem_cons_of_mem op ho))

/-- C1 amended: the id-uniqueness invariant holds after every sequence of
public operations *not containing `importData`* (seeding, `addUser`,
`deleteUser`, `toggleUserStatus`, todo operations, bulk operations, sorts,
resets, selection, theme, ticks and field assignments), starting from the
seeded initial state; `importData` replaces `users` wholesale without
validation and can break it. -/
theorem unique_ids_without_import (saved : Option String) (t0 : Int)
    (ops : List Op) (h : ∀ op ∈ ops, op.isImport = false) :
    UniqueIds (runOps (initState saved t0) ops).users := by
  apply uniqueIds_of_invUsers
  exact invUsers_runOps (invUsers_initState saved t0) h

/-- Witness for C1 (amended): a concrete import-free operation sequence
keeps ids unique. -/
theorem unique_ids_without_import_witness :
    (∀ op ∈ [Op.addUser "Zoe" "zoe@mail.io", Op.deleteUser 2,
             Op.sortUsersByName, Op.toggleUserStatus 1,
             Op.deactivateAllUsers, Op.resetToDefaults,
             Op.addUser "Yan" "yan@mail.io"], op.isImport = false) ∧
    UniqueIds (runOps (initState none 0)
      [Op.addUser "Zoe" "zoe@mail.io", Op.deleteUser 2,
       Op.sortUsersByName, Op.toggleUserStatus 1,
       Op.deactivateAllUsers, Op.resetToDefaults,
       Op.addUser "Yan" "yan@mail.io"]).users :=
  ⟨by decide, unique_ids_without_import none 0 _ (by decide)⟩
